import Mathlib

/-!
Verification of the beef-briefing Telegram import pipeline.

This file gives a shallow embedding, in Lean, of the bulk-import pipeline of
the telegram-bot service (packages internal/importer, internal/store and the
handler that drives them) and proves the behavioural claims about it.

Modelling conventions:
- Go machine integers become Int (values stay far from 2^63 in every claim;
  strconv.ParseInt range checks are modelled explicitly).
- time.Time values are modelled as UTC seconds since epoch (Int);
  time.Parse(time.RFC3339, s) is abstracted as an environment function
  String to Option Int, since none of the claims depend on the RFC3339
  grammar itself, only on the resolution order.
- json.RawMessage is modelled as Option Json over a standard JSON value
  type (none = empty/absent raw bytes).
- The relational store and the object store become explicit state
  (Database / ObjectStore); each fallible store call is given a
  success/failure oracle in Env so failure-injection scenarios can be
  stated. Existence queries read the Database state directly.
- IO around the pipeline (reading result.json from disk) is abstracted:
  Import receives the decoded ExportData.
-/

namespace BeefBriefing

/-- A standard JSON value; models the dynamic content of a json.RawMessage
field. Numbers are restricted to integers (no claim depends on float
payloads). -/
inductive Json where
  | null : Json
  | bool (b : Bool) : Json
  | num (n : Int) : Json
  | str (s : String) : Json
  | arr (elems : List Json) : Json
  | obj (fields : List (String × Json)) : Json

/-- TextEntity from internal/importer/types.go. -/
structure TextEntity where
  type : String := ""
  text : String := ""
  userID : Option Int := none
deriving Repr, DecidableEq

/-- ExportMessage from internal/importer/types.go: one manifest record,
pointer-typed Go fields become Option. -/
structure ExportMessage where
  id : Int := 0
  type : String := ""
  date : String := ""
  dateUnixtime : String := ""
  From : Option String := none
  fromID : String := ""
  text : Option Json := none
  textEntities : List TextEntity := []
  replyToMsgID : Option Int := none
  forwardedFrom : Option String := none
  forwardedFromID : Option String := none
  photo : Option String := none
  photoFileSize : Option Int := none
  file : Option String := none
  fileName : Option String := none
  fileSize : Option Int := none
  mediaType : Option String := none
  mimeType : Option String := none
  durationSec : Option Int := none
  width : Option Int := none
  height : Option Int := none
  thumbnail : Option String := none
  actor : Option String := none
  actorID : Option String := none
  action : Option String := none
  members : List String := []

/-- ExportData from internal/importer/types.go: the decoded manifest. -/
structure ExportData where
  name : String := ""
  type : String := ""
  id : Int := 0
  messages : List ExportMessage := []

def int64Max : Int := 9223372036854775807

def int64Min : Int := -9223372036854775808

/-- The numeric value of a digit list, most significant first. -/
def digitsVal (ds : List Char) : Nat :=
  ds.foldl (fun acc c => acc * 10 + (c.toNat - 48)) 0

/-- strconv.ParseInt(s, 10, 64): optional sign, then one or more ASCII
digits, value must fit in int64; none on any syntax or range error. -/
def goParseInt64 (s : String) : Option Int :=
  let cs := s.data
  let signed : Bool × List Char :=
    match cs with
    | '+' :: rest => (false, rest)
    | '-' :: rest => (true, rest)
    | _ => (false, cs)
  let ds := signed.2
  if ds.isEmpty then none
  else if ds.all (fun c => c.isDigit) then
    let v : Int := if signed.1 then -(digitsVal ds : Int) else (digitsVal ds : Int)
    if int64Min ≤ v ∧ v ≤ int64Max then some v else none
  else none

/-- ParseUserID from types.go: strip an optional "user" tag, then parse the
rest (or the whole string) as a base-10 int64. -/
def ParseUserID (fromID : String) : Except String Int :=
  if fromID = "" then .error "empty user ID"
  else
    let idChars : List Char :=
      match fromID.data with
      | 'u' :: 's' :: 'e' :: 'r' :: rest => rest
      | _ => fromID.data
    match goParseInt64 (String.mk idChars) with
    | some v => .ok v
    | none => .error ("failed to parse user ID " ++ fromID)

/-- MapServiceAction from types.go: the fixed action-normalisation table;
unknown keywords pass through unchanged. -/
def MapServiceAction (exportAction : String) : String :=
  if exportAction = "invite_members" then "user_joined"
  else if exportAction = "remove_members" then "user_left"
  else if exportAction = "join_group_by_link" then "user_joined"
  else if exportAction = "migrate_to_supergroup" then "chat_migrated"
  else if exportAction = "pin_message" then "message_pinned"
  else if exportAction = "edit_group_title" then "title_changed"
  else if exportAction = "edit_group_photo" then "photo_changed"
  else exportAction

/-- json.Unmarshal into a Go string: succeeds on a JSON string, and on null
(leaving the zero value ""). -/
def decodeGoString : Json → Option String
  | .str s => some s
  | .null => some ""
  | _ => none

/-- Look up an object field that Go decodes into a string: absent or null
yields the zero value; anything but a string is a type error. -/
def fieldString (fields : List (String × Json)) (key : String) : Option String :=
  match fields.lookup key with
  | none => some ""
  | some .null => some ""
  | some (.str s) => some s
  | some _ => none

/-- Look up an object field that Go decodes into an optional int64. -/
def fieldOptInt (fields : List (String × Json)) (key : String) : Option (Option Int) :=
  match fields.lookup key with
  | none => some none
  | some .null => some none
  | some (.num n) => if int64Min ≤ n ∧ n ≤ int64Max then some (some n) else none
  | some _ => none

/-- json.Unmarshal of one array element into a TextEntity struct. -/
def decodeTextEntity : Json → Option TextEntity
  | .null => some {}
  | .obj fields => do
    let t ← fieldString fields "type"
    let txt ← fieldString fields "text"
    let uid ← fieldOptInt fields "user_id"
    pure { type := t, text := txt, userID := uid }
  | _ => none

/-- json.Unmarshal into a Go slice of TextEntity: null gives the nil slice,
an array decodes elementwise, anything else is a type error. -/
def decodeTextEntityList : Json → Option (List TextEntity)
  | .null => some []
  | .arr elems => elems.mapM decodeTextEntity
  | _ => none

/-- GetTextContent from types.go: empty raw text is empty; otherwise try the
plain-string decoding, then the span-sequence decoding (concatenating each
span's text in order), else empty. -/
def ExportMessage.GetTextContent (em : ExportMessage) : String :=
  match em.text with
  | none => ""
  | some j =>
    match decodeGoString j with
    | some s => s
    | none =>
      match decodeTextEntityList j with
      | some entities => String.join (entities.map (fun e => e.text))
      | none => ""

/-- parseMessageDate from extractor.go: prefer the epoch-seconds string
(base-10 int64, interpreted as a UTC instant); fall back to the ISO-8601
date field parsed by the abstracted rfc parser; otherwise a per-record
error. -/
def parseMessageDate (rfc : String → Option Int) (em : ExportMessage) : Except String Int :=
  match (if em.dateUnixtime = "" then none else goParseInt64 em.dateUnixtime) with
  | some ts => .ok ts
  | none =>
    if em.date = "" then .error "no date found in message"
    else
      match rfc em.date with
      | some t => .ok t
      | none => .error ("failed to parse date " ++ em.date)

/-- stringValue from extractor.go. -/
def stringValue (s : Option String) : String :=
  match s with
  | none => ""
  | some v => v

/-- The fixed media-kind hint table inside DetermineMediaType (media.go);
none models falling out of the Go switch. -/
def mediaTypeTable (hint : String) : Option String :=
  if hint = "video_file" then some "video"
  else if hint = "voice_message" then some "voice"
  else if hint = "animation" then some "animation"
  else if hint = "sticker" then some "sticker"
  else if hint = "video_message" then some "video_note"
  else none

/-- DetermineMediaType from media.go: photo-path field first, then the
media-kind hint through the fixed table, then the generic-file field, else
text. -/
def DetermineMediaType (em : ExportMessage) : String :=
  if em.photo.isSome then "photo"
  else
    match (match em.mediaType with
           | some hint => mediaTypeTable hint
           | none => none) with
    | some t => t
    | none => if em.file.isSome then "document" else "text"

/-- GetMediaPath from media.go. -/
def GetMediaPath (em : ExportMessage) : String :=
  match em.photo with
  | some p => p
  | none =>
    match em.file with
    | some f => f
    | none => ""

/-- Chat row (internal/store/postgres.go). Timestamps are not modelled: the
code always writes time.Now() and no claim observes them. -/
structure Chat where
  id : Int := 0
  type : String := ""
  name : String := ""
deriving Repr, DecidableEq

/-- User row (internal/store/postgres.go); only the fields the importer
populates are modelled. -/
structure User where
  id : Int := 0
  firstName : String := ""
deriving Repr, DecidableEq

/-- Message row as written by InsertMessage for the import path (the
location/venue fields are never set by the importer and stay none). -/
structure MessageRow where
  telegramMessageID : Int := 0
  chatID : Int := 0
  userID : Option Int := none
  messageDate : Int := 0
  messageType : String := ""
  text : Option String := none
  replyToMessageID : Option Int := none
  forwardedFromUserID : Option Int := none
  mediaSHA256 : Option String := none
  mediaFileName : Option String := none
  mediaFileSize : Option Int := none
  mediaMimeType : Option String := none
  mediaDuration : Option Int := none
  mediaWidth : Option Int := none
  mediaHeight : Option Int := none
  entities : Option (List TextEntity) := none
deriving Repr, DecidableEq

/-- ServiceMessage row; the metadata JSONB carries at most the members
list. -/
structure ServiceMessageRow where
  telegramMessageID : Int := 0
  chatID : Int := 0
  actorUserID : Option Int := none
  messageDate : Int := 0
  action : String := ""
  metadataMembers : List String := []
deriving Repr, DecidableEq

/-- The relational store state. -/
structure Database where
  chats : List Chat := []
  users : List User := []
  messages : List MessageRow := []
  serviceMessages : List ServiceMessageRow := []
deriving Repr, DecidableEq

/-- MessageExists from postgres.go: natural-key probe on (chat id, source
record id). -/
def Database.MessageExists (db : Database) (chatID tgID : Int) : Bool :=
  db.messages.any (fun r => r.chatID = chatID ∧ r.telegramMessageID = tgID)

/-- ServiceMessageExists from postgres.go. -/
def Database.ServiceMessageExists (db : Database) (chatID tgID : Int) : Bool :=
  db.serviceMessages.any (fun r => r.chatID = chatID ∧ r.telegramMessageID = tgID)

/-- UpsertChat from postgres.go: INSERT ... ON CONFLICT (id) DO UPDATE. -/
def Database.UpsertChat (db : Database) (chat : Chat) : Database :=
  if db.chats.any (fun c => c.id = chat.id) then
    { db with chats := db.chats.map (fun c => if c.id = chat.id then chat else c) }
  else
    { db with chats := db.chats ++ [chat] }

/-- UpsertUser from postgres.go: INSERT ... ON CONFLICT (id) DO UPDATE. -/
def Database.UpsertUser (db : Database) (user : User) : Database :=
  if db.users.any (fun u => u.id = user.id) then
    { db with users := db.users.map (fun u => if u.id = user.id then user else u) }
  else
    { db with users := db.users ++ [user] }

/-- InsertMessage from postgres.go (import path): a plain INSERT with no
conflict clause; the row is appended. -/
def Database.InsertMessage (db : Database) (row : MessageRow) : Database :=
  { db with messages := db.messages ++ [row] }

/-- InsertServiceMessage from postgres.go: INSERT ... ON CONFLICT
(chat_id, telegram_message_id) DO NOTHING. -/
def Database.InsertServiceMessage (db : Database) (row : ServiceMessageRow) : Database :=
  if db.ServiceMessageExists row.chatID row.telegramMessageID then db
  else { db with serviceMessages := db.serviceMessages ++ [row] }

/-- The object store state: stored objects as key-payload pairs, in upload
order. -/
structure ObjectStore where
  objects : List (String × List Nat) := []
deriving Repr, DecidableEq

/-- Key-existence probe of the object store. -/
def ObjectStore.existsKey (os : ObjectStore) (key : String) : Bool :=
  os.objects.any (fun o => o.1 = key)

/-- How many objects the store holds under a key. -/
def ObjectStore.countKey (os : ObjectStore) (key : String) : Nat :=
  (os.objects.filter (fun o => o.1 = key)).length

/-- Modelled from the spec: MinIOClient.UploadFile (the
internal/storage package is not among the sources; only its callers are).
Spec section 4.3: the key is the fixed-length content hash of the exact
bytes in lowercase hex (abstracted here as the hashHex parameter), the
store probes existence first and uploads only if the key is absent, and a
transport failure after a negative probe surfaces as an error. The Nat
returned counts physical writes performed by the call. -/
def uploadFile (hashHex : List Nat → String) (uploadOk : List Nat → Bool)
    (os : ObjectStore) (data : List Nat) (_contentType : String) :
    Except String (String × ObjectStore × Nat) :=
  let key := hashHex data
  if os.existsKey key then .ok (key, os, 0)
  else if uploadOk data then .ok (key, { objects := os.objects ++ [(key, data)] }, 1)
  else .error "failed to upload file"

/-- ImportProgress from types.go. -/
structure ImportProgress where
  total : Nat := 0
  processed : Nat := 0
  inserted : Nat := 0
  skipped : Nat := 0
  errorCount : Nat := 0
  mediaUploaded : Nat := 0
  currentChunk : Nat := 0
  totalChunks : Nat := 0
deriving Repr, DecidableEq

/-- Failure-injection environment: abstracted parsers plus one
success-oracle per fallible store call, so the claims about injected
failures (commit failure on a chunk, unreadable media, ...) can be stated.
chunkSize is the Importer's configured chunk size. -/
structure Env where
  rfc3339 : String → Option Int
  hashHex : List Nat → String
  readMedia : String → Option (List Nat)
  uploadOk : List Nat → Bool
  msgExistsOk : Int → Int → Bool
  svcExistsOk : Int → Int → Bool
  upsertChatOk : Chat → Bool
  upsertUserOk : User → Bool
  insertMessageOk : MessageRow → Bool
  insertServiceOk : ServiceMessageRow → Bool
  beginTxOk : Nat → Bool
  commitOk : Nat → Bool
  cancelAt : Nat → Bool
  chunkSize : Nat

/-- The mutable state one import call threads through: relational store
plus object store. -/
structure ImportState where
  db : Database := {}
  os : ObjectStore := {}
deriving Repr, DecidableEq

/-- Result of one per-record handler: updated stores, updated progress, and
whether the handler returned an error (Go: a non-nil error). State changes
made before the error point persist, as they do through the store's
connection pool. -/
structure RecResult where
  st : ImportState
  prog : ImportProgress
  err : Bool
deriving Repr, DecidableEq

/-- ProcessMedia from media.go: read the referenced file below the
extracted directory, then upload its bytes (content-addressed) to the
object store. -/
def processMedia (env : Env) (os : ObjectStore) (relativePath mimeType : String) :
    Except String (String × ObjectStore × Nat) :=
  if relativePath = "" then .error "empty media path"
  else
    match env.readMedia relativePath with
    | none => .error "failed to read media file"
    | some data => uploadFile env.hashHex env.uploadOk os data mimeType

/-- The best-effort participant upsert both record paths share: parse
failure yields no upsert at all, and an upsert failure is logged and
swallowed (the state is kept as is). -/
def bestEffortUpsertUser (env : Env) (st : ImportState) (userParse : Option Int)
    (displayName : Option String) : ImportState :=
  match userParse with
  | none => st
  | some v =>
    let user : User := { id := v, firstName := stringValue displayName }
    if env.upsertUserOk user then { st with db := st.db.UpsertUser user } else st

/-- processServiceMessage from extractor.go: skip when the natural key
exists, upsert the chat, best-effort upsert of the actor, parse the date,
map the action, insert. -/
def processServiceMessage (env : Env) (st : ImportState) (prog : ImportProgress)
    (chatID : Int) (chatType chatName : String) (em : ExportMessage) : RecResult :=
  if env.svcExistsOk chatID em.id = false then { st := st, prog := prog, err := true }
  else if st.db.ServiceMessageExists chatID em.id then
    { st := st, prog := { prog with skipped := prog.skipped + 1 }, err := false }
  else
    let chat : Chat := { id := chatID, type := chatType, name := chatName }
    if env.upsertChatOk chat = false then { st := st, prog := prog, err := true }
    else
      let st := { st with db := st.db.UpsertChat chat }
      let actorParse : Option Int :=
        match em.actorID with
        | none => none
        | some aid =>
          match ParseUserID aid with
          | .ok v => some v
          | .error _ => none
      let st := bestEffortUpsertUser env st actorParse em.actor
      match parseMessageDate env.rfc3339 em with
      | .error _ => { st := st, prog := prog, err := true }
      | .ok messageDate =>
        let action :=
          match em.action with
          | some a => MapServiceAction a
          | none => ""
        let row : ServiceMessageRow :=
          { telegramMessageID := em.id
            chatID := chatID
            actorUserID := actorParse
            messageDate := messageDate
            action := action
            metadataMembers := em.members }
        if env.insertServiceOk row = false then { st := st, prog := prog, err := true }
        else
          { st := { st with db := st.db.InsertServiceMessage row }
            prog := { prog with inserted := prog.inserted + 1 }
            err := false }

/-- processRegularMessage from extractor.go: skip when the natural key
exists, upsert the chat, best-effort upsert of the sender, parse the date,
classify, best-effort media upload (a failure is swallowed and the hash
left empty), then insert. -/
def processRegularMessage (env : Env) (st : ImportState) (prog : ImportProgress)
    (chatID : Int) (chatType chatName : String) (em : ExportMessage) : RecResult :=
  if env.msgExistsOk chatID em.id = false then { st := st, prog := prog, err := true }
  else if st.db.MessageExists chatID em.id then
    { st := st, prog := { prog with skipped := prog.skipped + 1 }, err := false }
  else
    let chat : Chat := { id := chatID, type := chatType, name := chatName }
    if env.upsertChatOk chat = false then { st := st, prog := prog, err := true }
    else
      let st := { st with db := st.db.UpsertChat chat }
      let userParse : Option Int :=
        if em.fromID = "" then none
        else
          match ParseUserID em.fromID with
          | .ok v => some v
          | .error _ => none
      let st := bestEffortUpsertUser env st userParse em.From
      match parseMessageDate env.rfc3339 em with
      | .error _ => { st := st, prog := prog, err := true }
      | .ok messageDate =>
        let messageType := DetermineMediaType em
        let mediaPath := GetMediaPath em
        let mediaStep : ImportState × ImportProgress × Option String :=
          if mediaPath = "" then (st, prog, none)
          else
            match processMedia env st.os mediaPath (stringValue em.mimeType) with
            | .error _ => (st, prog, none)
            | .ok (hash, os2, _) =>
              ({ st with os := os2 },
               { prog with mediaUploaded := prog.mediaUploaded + 1 },
               some hash)
        let st := mediaStep.1
        let prog := mediaStep.2.1
        let mediaSHA256 := mediaStep.2.2
        let mediaFileName := if mediaPath = "" then none else em.fileName
        let mediaMimeType := if mediaPath = "" then none else em.mimeType
        let textContent := em.GetTextContent
        let text : Option String := if textContent = "" then none else some textContent
        let entities : Option (List TextEntity) :=
          if em.textEntities.isEmpty then none else some em.textEntities
        let forwardedFromUserID : Option Int :=
          match em.forwardedFromID with
          | none => none
          | some fid =>
            match ParseUserID fid with
            | .ok v => some v
            | .error _ => none
        let fileSize : Option Int :=
          match em.fileSize with
          | some s => some s
          | none => em.photoFileSize
        let row : MessageRow :=
          { telegramMessageID := em.id
            chatID := chatID
            userID := userParse
            messageDate := messageDate
            messageType := messageType
            text := text
            replyToMessageID := em.replyToMsgID
            forwardedFromUserID := forwardedFromUserID
            mediaSHA256 := mediaSHA256
            mediaFileName := mediaFileName
            mediaFileSize := fileSize
            mediaMimeType := mediaMimeType
            mediaDuration := em.durationSec
            mediaWidth := em.width
            mediaHeight := em.height
            entities := entities }
        if env.insertMessageOk row = false then { st := st, prog := prog, err := true }
        else
          { st := { st with db := st.db.InsertMessage row }
            prog := { prog with inserted := prog.inserted + 1 }
            err := false }

/-- processMessage from extractor.go: dispatch on the record tag. -/
def processMessage (env : Env) (st : ImportState) (prog : ImportProgress)
    (chatID : Int) (chatType chatName : String) (em : ExportMessage) : RecResult :=
  if em.type = "service" then
    processServiceMessage env st prog chatID chatType chatName em
  else
    processRegularMessage env st prog chatID chatType chatName em

/-- One iteration of the record loop inside processChunk: bump Processed,
run the record, absorb a per-record error into ErrorCount and continue. -/
def processRecordStep (env : Env) (chatID : Int) (chatType chatName : String)
    (acc : ImportState × ImportProgress) (em : ExportMessage) :
    ImportState × ImportProgress :=
  let prog := { acc.2 with processed := acc.2.processed + 1 }
  let r := processMessage env acc.1 prog chatID chatType chatName em
  if r.err then (r.st, { r.prog with errorCount := r.prog.errorCount + 1 })
  else (r.st, r.prog)

/-- processChunk from extractor.go. A transaction is begun and committed
around the record loop, but every per-record statement runs on the store's
connection pool rather than on the transaction handle, so the records'
writes persist even when the commit (or the rollback) fails; the Bool
reports whether processChunk returned an error. -/
def processChunk (env : Env) (ed : ExportData) (start stop : Nat) (chatID : Int)
    (acc : ImportState × ImportProgress) (chunkIdx : Nat) :
    ImportState × ImportProgress × Bool :=
  if env.beginTxOk chunkIdx = false then (acc.1, acc.2, true)
  else
    let slice := (ed.messages.drop start).take (stop - start)
    let folded := slice.foldl (processRecordStep env chatID ed.type ed.name) acc
    if env.commitOk chunkIdx then (folded.1, folded.2, false)
    else (folded.1, folded.2, true)

/-- Result of the chunk loop: final state, final progress, the published
progress snapshots in order, and the cancellation error if one fired. -/
structure LoopOut where
  st : ImportState
  prog : ImportProgress
  published : List ImportProgress
  cancelled : Bool
deriving Repr, DecidableEq

/-- The chunk loop of Import: for each chunk set CurrentChunk, process the
chunk (a chunk error increments ErrorCount and the loop continues), then
either publish the snapshot or take the cancellation branch and stop.
Recursion is on the number of remaining chunks. -/
def chunkLoop (env : Env) (ed : ExportData) (chatID : Int) :
    Nat → Nat → ImportState × ImportProgress → List ImportProgress → LoopOut
  | 0, _, acc, pubs => { st := acc.1, prog := acc.2, published := pubs, cancelled := false }
  | k + 1, i, acc, pubs =>
    let prog1 := { acc.2 with currentChunk := i + 1 }
    let start := i * env.chunkSize
    let stop := min (start + env.chunkSize) ed.messages.length
    let r := processChunk env ed start stop chatID (acc.1, prog1) i
    let prog2 := if r.2.2 then { r.2.1 with errorCount := r.2.1.errorCount + 1 } else r.2.1
    if env.cancelAt i then
      { st := r.1, prog := prog2, published := pubs, cancelled := true }
    else
      chunkLoop env ed chatID k (i + 1) (r.1, prog2) (pubs ++ [prog2])

/-- Result of one Import call: the lock set after return, final stores,
published snapshots, the final progress counters (the values the completion
log reports), and the returned error. -/
structure ImportResult where
  locks : List Int
  st : ImportState
  published : List ImportProgress
  finalProgress : ImportProgress
  result : Except String Unit
deriving Repr

/-- Import from extractor.go. The per-chat lock: LoadOrStore fails fast
when the chat id is already locked (nothing is touched and the holder's
lock is left in place); otherwise the id is held for the duration and the
deferred Delete restores the lock set on every return path, so locks is
unchanged in the result. chunkSize is assumed positive as in the deployed
configuration (Go would panic on the chunk-count division otherwise). The
manifest arrives already decoded (file IO abstracted). -/
def Import (env : Env) (locks : List Int) (chatID : Int) (ed : ExportData)
    (st : ImportState) : ImportResult :=
  if chatID ∈ locks then
    { locks := locks, st := st, published := [], finalProgress := {},
      result := .error ("import already in progress for chat " ++ toString chatID) }
  else
    let totalMessages := ed.messages.length
    let totalChunks := (totalMessages + env.chunkSize - 1) / env.chunkSize
    let prog0 : ImportProgress := { total := totalMessages, totalChunks := totalChunks }
    let out := chunkLoop env ed chatID totalChunks 0 (st, prog0) []
    { locks := locks
      st := out.st
      published := out.published
      finalProgress := out.prog
      result := if out.cancelled then .error "context canceled" else .ok () }

/-- processZipFile from the bot handler (src/unnamed/part_001 line 99 and
part_002 line 173): every call constructs a fresh Importer through
NewImporter, whose activeLocks map is initialised empty, and then runs
that Importer's Import; so the lock set any one call consults is always
its own freshly created empty one, never another call's (archive
extraction and the progress goroutine are abstracted as in Import). -/
def processZipFile (env : Env) (chatID : Int) (ed : ExportData) (st : ImportState) :
    ImportResult :=
  Import env [] chatID ed st

/-- Decidable form of "the record's date resolves". -/
def dateOkB (rfc : String → Option Int) (em : ExportMessage) : Bool :=
  match parseMessageDate rfc em with
  | .ok _ => true
  | .error _ => false

/-- The record's natural key is present in the table its tag routes it
to. -/
def keyPresent (db : Database) (chatID : Int) (em : ExportMessage) : Bool :=
  if em.type = "service" then db.ServiceMessageExists chatID em.id
  else db.MessageExists chatID em.id

/-- An environment in which every store call succeeds and cancellation
never fires; parsers and media outcomes stay arbitrary. -/
structure EnvOk (env : Env) : Prop where
  msgExists : ∀ a b, env.msgExistsOk a b = true
  svcExists : ∀ a b, env.svcExistsOk a b = true
  upsertChat : ∀ c, env.upsertChatOk c = true
  upsertUser : ∀ u, env.upsertUserOk u = true
  insertMessage : ∀ m, env.insertMessageOk m = true
  insertService : ∀ s, env.insertServiceOk s = true
  beginTx : ∀ i, env.beginTxOk i = true
  commit : ∀ i, env.commitOk i = true
  cancel : ∀ i, env.cancelAt i = false

/-- The second database extends the first in both record tables (chats and
users may have been rewritten by upserts). -/
def Database.Grows (db db2 : Database) : Prop :=
  (∃ t, db2.messages = db.messages ++ t) ∧
  (∃ t, db2.serviceMessages = db.serviceMessages ++ t)

/-- No two message rows share the natural key. -/
def NodupMsgKeys (db : Database) : Prop :=
  db.messages.Pairwise
    (fun a b => ¬(a.chatID = b.chatID ∧ a.telegramMessageID = b.telegramMessageID))

/-- No two service rows share the natural key. -/
def NodupSvcKeys (db : Database) : Prop :=
  db.serviceMessages.Pairwise
    (fun a b => ¬(a.chatID = b.chatID ∧ a.telegramMessageID = b.telegramMessageID))

/-- A concrete all-success environment for witnesses: every store call
succeeds, the RFC3339 parser accepts one fixed literal, media reads fail
for every path except "pic.jpg". -/
def okEnv : Env where
  rfc3339 := fun s => if s = "2021-01-01T00:00:00Z" then some 1609459200 else none
  hashHex := fun d => "h" ++ toString d.length
  readMedia := fun p => if p = "pic.jpg" then some [1, 2, 3] else none
  uploadOk := fun _ => true
  msgExistsOk := fun _ _ => true
  svcExistsOk := fun _ _ => true
  upsertChatOk := fun _ => true
  upsertUserOk := fun _ => true
  insertMessageOk := fun _ => true
  insertServiceOk := fun _ => true
  beginTxOk := fun _ => true
  commitOk := fun _ => true
  cancelAt := fun _ => false
  chunkSize := 2

/-- okEnv with chunk size 1 and a forced commit failure on chunk 0. -/
def commitFailEnv : Env :=
  { okEnv with chunkSize := 1, commitOk := fun i => decide (i ≠ 0) }

/-- Witness record: a regular message with an epoch date and plain text. -/
def wm1 : ExportMessage :=
  { id := 1, type := "message", dateUnixtime := "100", fromID := "user42",
    text := some (.str "hi") }

/-- Witness record: a regular message with a photo that uploads. -/
def wm2 : ExportMessage :=
  { id := 2, type := "message", dateUnixtime := "200", photo := some "pic.jpg" }

/-- Witness record: a regular message dated only by the ISO field. -/
def wm3 : ExportMessage :=
  { id := 3, type := "message", date := "2021-01-01T00:00:00Z" }

/-- Witness record: a service message. -/
def ws4 : ExportMessage :=
  { id := 4, type := "service", dateUnixtime := "400", actorID := some "user7",
    actor := some "Bob", action := some "invite_members", members := ["a", "b"] }

/-- Witness record: a regular message with no resolvable date. -/
def wbad : ExportMessage :=
  { id := 9, type := "message", dateUnixtime := "xx", date := "nope" }

/-- Witness record: a regular message whose photo path cannot be read. -/
def wmedia : ExportMessage :=
  { id := 6, type := "message", dateUnixtime := "600", photo := some "missing.jpg",
    fileName := some "missing.jpg" }

/-- Witness manifest of three regular messages and one service message. -/
def wED : ExportData :=
  { name := "g", type := "group", id := 5, messages := [wm1, wm2, wm3, ws4] }

/-- Two-record witness manifest used with chunk size 1. -/
def wED2 : ExportData :=
  { name := "g", type := "group", id := 5, messages := [wm1, wm3] }

/-- Four-record witness manifest, regular and service records mixed, with
one unresolvable date in the middle. -/
def wED9 : ExportData :=
  { name := "g", type := "group", id := 5, messages := [wm1, wbad, ws4, wm3] }

/-- One-record witness manifest whose only record has a failing media
read. -/
def wEDmedia : ExportData :=
  { name := "g", type := "group", id := 5, messages := [wmedia] }

/-- okEnv with every participant upsert failing. -/
def upsertFailEnv : Env :=
  { okEnv with upsertUserOk := fun _ => false }

/-- okEnv with every message insert failing. -/
def insertFailEnv : Env :=
  { okEnv with insertMessageOk := fun _ => false }

/-- Witness record: a regular message whose sender id does not parse. -/
def wactor : ExportMessage :=
  { id := 7, type := "message", dateUnixtime := "700", fromID := "userXYZ" }

/-- Witness record: a regular message with a parseable sender id and no
media. -/
def wuser : ExportMessage :=
  { id := 8, type := "message", dateUnixtime := "800", fromID := "user42" }

/-- One-record witness manifest around wactor. -/
def wEDactor : ExportData :=
  { name := "g", type := "group", id := 5, messages := [wactor] }

/-- One-record witness manifest around wuser. -/
def wEDuser : ExportData :=
  { name := "g", type := "group", id := 5, messages := [wuser] }

theorem existsKey_false_countKey {os : ObjectStore} {k : String}
    (h : os.existsKey k = false) : os.countKey k = 0 := by
  simp only [ObjectStore.existsKey, List.any_eq_false, decide_eq_true_eq] at h
  simp only [ObjectStore.countKey, List.length_eq_zero, List.filter_eq_nil_iff]
  intro o ho
  simpa using h o ho

theorem countKey_append_single (os : ObjectStore) (k : String) (data : List Nat) :
    ObjectStore.countKey { objects := os.objects ++ [(k, data)] } k = os.countKey k + 1 := by
  simp [ObjectStore.countKey, List.filter_append]

theorem existsKey_append_single (os : ObjectStore) (k : String) (data : List Nat) :
    ObjectStore.existsKey { objects := os.objects ++ [(k, data)] } k = true := by
  simp [ObjectStore.existsKey]

/-- Claim C4: the media store's Put (UploadFile) is logically idempotent:
two calls with byte-identical payloads, whatever content type the second
declares, both return the content-hash key, perform at most one physical
write between them, and leave exactly one object under that key. -/
theorem uploadFile_idempotent (hashHex : List Nat → String) (uploadOk : List Nat → Bool)
    (os : ObjectStore) (data : List Nat) (ct1 ct2 : String)
    (hwf : os.countKey (hashHex data) ≤ 1) (hup : uploadOk data = true) :
    ∃ os1 w1 os2 w2,
      uploadFile hashHex uploadOk os data ct1 = .ok (hashHex data, os1, w1)
      ∧ uploadFile hashHex uploadOk os1 data ct2 = .ok (hashHex data, os2, w2)
      ∧ w1 + w2 ≤ 1
      ∧ os2.countKey (hashHex data) = 1 := by
  by_cases h : os.existsKey (hashHex data) = true
  · refine ⟨os, 0, os, 0, ?_, ?_, ?_, ?_⟩
    · simp [uploadFile, h]
    · simp [uploadFile, h]
    · omega
    · have h1 : 0 < os.countKey (hashHex data) := by
        rcases Nat.eq_zero_or_pos (os.countKey (hashHex data)) with h0 | h0
        · exfalso
          simp only [ObjectStore.countKey, List.length_eq_zero, List.filter_eq_nil_iff] at h0
          simp only [ObjectStore.existsKey, List.any_eq_true, decide_eq_true_eq] at h
          obtain ⟨o, ho, hk⟩ := h
          simpa [hk] using h0 o ho
        · exact h0
      omega
  · have h' : os.existsKey (hashHex data) = false := by
      cases hx : os.existsKey (hashHex data)
      · rfl
      · exact absurd hx h
    refine ⟨{ objects := os.objects ++ [(hashHex data, data)] }, 1,
      { objects := os.objects ++ [(hashHex data, data)] }, 0, ?_, ?_, ?_, ?_⟩
    · simp [uploadFile, h', hup]
    · simp [uploadFile, existsKey_append_single]
    · omega
    · rw [countKey_append_single, existsKey_false_countKey h']

/-- Claim C4 witness: concrete double upload. -/
theorem uploadFile_idempotent_witness :
    ∃ os1 w1 os2 w2,
      uploadFile (fun d => "h" ++ toString d.length) (fun _ => true) {} [1, 2] "image/jpeg"
        = .ok ("h2", os1, w1)
      ∧ uploadFile (fun d => "h" ++ toString d.length) (fun _ => true) os1 [1, 2] "text/plain"
        = .ok ("h2", os2, w2)
      ∧ w1 + w2 ≤ 1
      ∧ os2.countKey "h2" = 1 :=
  uploadFile_idempotent (fun d => "h" ++ toString d.length) (fun _ => true) {} [1, 2]
    "image/jpeg" "text/plain" (by decide) (by decide)

/-- Claim C7: text extraction is total: a text field decodable as a plain
string yields that string; otherwise a decodable span sequence yields the
in-order concatenation of the spans' texts; otherwise (or when the field is
empty) the empty string. -/
theorem GetTextContent_total_fallback (em : ExportMessage) :
    (em.text = none → em.GetTextContent = "")
    ∧ (∀ j s, em.text = some j → decodeGoString j = some s → em.GetTextContent = s)
    ∧ (∀ j entities, em.text = some j → decodeGoString j = none →
        decodeTextEntityList j = some entities →
        em.GetTextContent = String.join (entities.map (fun e => e.text)))
    ∧ (∀ j, em.text = some j → decodeGoString j = none → decodeTextEntityList j = none →
        em.GetTextContent = "") := by
  refine ⟨?_, ?_, ?_, ?_⟩
  · intro h; simp [ExportMessage.GetTextContent, h]
  · intro j s hj hs; simp [ExportMessage.GetTextContent, hj, hs]
  · intro j entities hj hs he; simp [ExportMessage.GetTextContent, hj, hs, he]
  · intro j hj hs he; simp [ExportMessage.GetTextContent, hj, hs, he]

/-- Claim C7 witness: a two-span sequence concatenates in order. -/
theorem GetTextContent_total_fallback_witness :
    ({ text := some (.arr [.obj [("type", .str "plain"), ("text", .str "hello ")],
                          .obj [("text", .str "world")]]) } : ExportMessage).GetTextContent
      = String.join (([⟨"plain", "hello ", none⟩, ⟨"", "world", none⟩] : List TextEntity).map
          (fun e => e.text)) :=
  (GetTextContent_total_fallback _).2.2.1
    (.arr [.obj [("type", .str "plain"), ("text", .str "hello ")],
           .obj [("text", .str "world")]])
    ([⟨"plain", "hello ", none⟩, ⟨"", "world", none⟩] : List TextEntity) rfl rfl (by decide)

/-- Claim C8: media-type classification precedence: populated photo path
first, then the media-kind hint through the fixed table, then a populated
generic-file field as document, else text; and the table is exactly the
five listed pairs. -/
theorem DetermineMediaType_precedence (em : ExportMessage) :
    (em.photo.isSome → DetermineMediaType em = "photo")
    ∧ (∀ hint t, em.photo = none → em.mediaType = some hint → mediaTypeTable hint = some t →
        DetermineMediaType em = t)
    ∧ (em.photo = none →
        (em.mediaType = none ∨ ∃ hint, em.mediaType = some hint ∧ mediaTypeTable hint = none) →
        em.file.isSome → DetermineMediaType em = "document")
    ∧ (em.photo = none →
        (em.mediaType = none ∨ ∃ hint, em.mediaType = some hint ∧ mediaTypeTable hint = none) →
        em.file = none → DetermineMediaType em = "text")
    ∧ mediaTypeTable "video_file" = some "video"
    ∧ mediaTypeTable "voice_message" = some "voice"
    ∧ mediaTypeTable "animation" = some "animation"
    ∧ mediaTypeTable "sticker" = some "sticker"
    ∧ mediaTypeTable "video_message" = some "video_note" := by
  refine ⟨?_, ?_, ?_, ?_, by decide, by decide, by decide, by decide, by decide⟩
  · intro h; simp [DetermineMediaType, h]
  · intro hint t hp hm ht; simp [DetermineMediaType, hp, hm, ht]
  · rintro hp (hm | ⟨hint, hm, ht⟩) hf
    · simp [DetermineMediaType, hp, hm, hf]
    · simp [DetermineMediaType, hp, hm, ht, hf]
  · rintro hp (hm | ⟨hint, hm, ht⟩) hf
    · simp [DetermineMediaType, hp, hm, hf]
    · simp [DetermineMediaType, hp, hm, ht, hf]

/-- Claim C8 witness: an unmapped hint with a file field set classifies as
document. -/
theorem DetermineMediaType_precedence_witness :
    DetermineMediaType { mediaType := some "audio_file", file := some "f.mp3" } = "document" :=
  (DetermineMediaType_precedence _).2.2.1 rfl (Or.inr ⟨"audio_file", rfl, by decide⟩) rfl

/-- Claim C3 (code bug evidence): the per-conversation single-flight lock
is not process-wide. The lock map the check consults (activeLocks) is a
field of the Importer, and the handler's processZipFile constructs a fresh
Importer for every call, so a second import for chat 5 started while the
first still holds 5 in its own Importer's lock map consults a fresh empty
lock set: it proceeds, writes both records and returns nil (first three
conjuncts), instead of failing at once with the already-in-progress error
and zero writes as the claim requires. The LoadOrStore check would fire
only against a lock set actually holding the id, which no second call
ever receives (last two conjuncts). -/
theorem single_flight_not_process_wide :
    (processZipFile okEnv 5 wED2 {}).result = .ok ()
    ∧ (processZipFile okEnv 5 wED2 {}).finalProgress.inserted = 2
    ∧ (processZipFile okEnv 5 wED2 {}).st.db.messages.map
        (fun r => r.telegramMessageID) = [1, 3]
    ∧ (Import okEnv [5] 5 wED2 {}).result
        = .error ("import already in progress for chat " ++ toString (5 : Int))
    ∧ (Import okEnv [5] 5 wED2 {}).st = ({} : ImportState) :=
  ⟨rfl, rfl, by decide, rfl, rfl⟩

/-- Claim C10: an Import over a manifest with no records returns nil
without touching the stores and without publishing a single progress
snapshot; Total and TotalChunks are both 0. -/
theorem Import_empty_manifest (env : Env) (locks : List Int) (chatID : Int)
    (nm tp : String) (cid : Int) (st : ImportState)
    (hcs : 1 ≤ env.chunkSize) (hlock : chatID ∉ locks) :
    Import env locks chatID { name := nm, type := tp, id := cid, messages := [] } st
      = { locks := locks, st := st, published := [],
          finalProgress := { total := 0, totalChunks := 0 }, result := .ok () } := by
  have htc : (env.chunkSize - 1) / env.chunkSize = 0 := Nat.div_eq_of_lt (by omega)
  simp [Import, hlock, htc, chunkLoop]

/-- Claim C10 witness: the empty manifest against a concrete environment. -/
theorem Import_empty_manifest_witness :
    Import okEnv [] 5 { name := "g", type := "group", id := 5, messages := [] } {}
      = { locks := [], st := {}, published := [],
          finalProgress := { total := 0, totalChunks := 0 }, result := .ok () } :=
  Import_empty_manifest okEnv [] 5 "g" "group" 5 {} (by decide) (by decide)

/-- Claim C2 (code bug evidence): with chunk size 1 and a forced commit
failure on chunk 0, the chunk-0 record (id 1) is still present afterward —
processChunk's per-record statements run on the store's connection pool,
not on the transaction it begins, so the failed commit rolls nothing
back — while the import continues (id 3 present, result nil) and the error
counter is incremented once. -/
theorem processChunk_commit_failure_writes_persist :
    commitFailEnv.commitOk 0 = false
    ∧ (Import commitFailEnv [] 5 wED2 {}).result = .ok ()
    ∧ (Import commitFailEnv [] 5 wED2 {}).st.db.messages.map (fun r => r.telegramMessageID)
        = [1, 3]
    ∧ (Import commitFailEnv [] 5 wED2 {}).finalProgress.errorCount = 1
    ∧ (Import commitFailEnv [] 5 wED2 {}).finalProgress.inserted = 2 := by
  refine ⟨by decide, rfl, rfl, rfl, rfl⟩

theorem UpsertChat_messages (db : Database) (c : Chat) :
    (db.UpsertChat c).messages = db.messages := by
  unfold Database.UpsertChat; split <;> rfl

theorem UpsertChat_serviceMessages (db : Database) (c : Chat) :
    (db.UpsertChat c).serviceMessages = db.serviceMessages := by
  unfold Database.UpsertChat; split <;> rfl

theorem UpsertUser_messages (db : Database) (u : User) :
    (db.UpsertUser u).messages = db.messages := by
  unfold Database.UpsertUser; split <;> rfl

theorem UpsertUser_serviceMessages (db : Database) (u : User) :
    (db.UpsertUser u).serviceMessages = db.serviceMessages := by
  unfold Database.UpsertUser; split <;> rfl

theorem bestEffortUpsertUser_messages (env : Env) (st : ImportState) (uP : Option Int)
    (nm : Option String) :
    (bestEffortUpsertUser env st uP nm).db.messages = st.db.messages := by
  cases uP with
  | none => rfl
  | some v =>
    simp only [bestEffortUpsertUser]
    split <;> simp [UpsertUser_messages]

theorem bestEffortUpsertUser_serviceMessages (env : Env) (st : ImportState) (uP : Option Int)
    (nm : Option String) :
    (bestEffortUpsertUser env st uP nm).db.serviceMessages = st.db.serviceMessages := by
  cases uP with
  | none => rfl
  | some v =>
    simp only [bestEffortUpsertUser]
    split <;> simp [UpsertUser_serviceMessages]

theorem bestEffortUpsertUser_os (env : Env) (st : ImportState) (uP : Option Int)
    (nm : Option String) :
    (bestEffortUpsertUser env st uP nm).os = st.os := by
  cases uP with
  | none => rfl
  | some v =>
    simp only [bestEffortUpsertUser]
    split <;> rfl

theorem InsertServiceMessage_fresh {db : Database} {row : ServiceMessageRow}
    (h : db.ServiceMessageExists row.chatID row.telegramMessageID = false) :
    db.InsertServiceMessage row
      = { db with serviceMessages := db.serviceMessages ++ [row] } := by
  unfold Database.InsertServiceMessage
  simp [h]

theorem MessageExists_congr {db db2 : Database} (chatID tgID : Int)
    (h : db2.messages = db.messages) :
    db2.MessageExists chatID tgID = db.MessageExists chatID tgID := by
  simp [Database.MessageExists, h]

theorem ServiceMessageExists_congr {db db2 : Database} (chatID tgID : Int)
    (h : db2.serviceMessages = db.serviceMessages) :
    db2.ServiceMessageExists chatID tgID = db.ServiceMessageExists chatID tgID := by
  simp [Database.ServiceMessageExists, h]

theorem MessageExists_of_extends {db db2 : Database} {chatID tgID : Int}
    (h : ∃ t, db2.messages = db.messages ++ t)
    (hx : db.MessageExists chatID tgID = true) : db2.MessageExists chatID tgID = true := by
  obtain ⟨t, ht⟩ := h
  simp only [Database.MessageExists, ht, List.any_append, Bool.or_eq_true]
  exact Or.inl hx

theorem ServiceMessageExists_of_extends {db db2 : Database} {chatID tgID : Int}
    (h : ∃ t, db2.serviceMessages = db.serviceMessages ++ t)
    (hx : db.ServiceMessageExists chatID tgID = true) :
    db2.ServiceMessageExists chatID tgID = true := by
  obtain ⟨t, ht⟩ := h
  simp only [Database.ServiceMessageExists, ht, List.any_append, Bool.or_eq_true]
  exact Or.inl hx

theorem dateOkB_iff (rfc : String → Option Int) (em : ExportMessage) :
    dateOkB rfc em = true ↔ ∃ t, parseMessageDate rfc em = .ok t := by
  unfold dateOkB
  cases h : parseMessageDate rfc em <;> simp

theorem dateOkB_false_iff (rfc : String → Option Int) (em : ExportMessage) :
    dateOkB rfc em = false ↔ ∃ e, parseMessageDate rfc em = .error e := by
  unfold dateOkB
  cases h : parseMessageDate rfc em <;> simp

theorem processServiceMessage_skip (env : Env) (st : ImportState) (prog : ImportProgress)
    (chatID : Int) (ct cn : String) (em : ExportMessage)
    (hq : env.svcExistsOk chatID em.id = true)
    (hex : st.db.ServiceMessageExists chatID em.id = true) :
    processServiceMessage env st prog chatID ct cn em
      = { st := st, prog := { prog with skipped := prog.skipped + 1 }, err := false } := by
  unfold processServiceMessage
  simp [hq, hex]

theorem processRegularMessage_skip (env : Env) (st : ImportState) (prog : ImportProgress)
    (chatID : Int) (ct cn : String) (em : ExportMessage)
    (hq : env.msgExistsOk chatID em.id = true)
    (hex : st.db.MessageExists chatID em.id = true) :
    processRegularMessage env st prog chatID ct cn em
      = { st := st, prog := { prog with skipped := prog.skipped + 1 }, err := false } := by
  unfold processRegularMessage
  simp [hq, hex]

theorem processServiceMessage_ok (env : Env) (st : ImportState) (prog : ImportProgress)
    (chatID : Int) (ct cn : String) (em : ExportMessage)
    (hok : EnvOk env)
    (hex : st.db.ServiceMessageExists chatID em.id = false)
    (hdate : dateOkB env.rfc3339 em = true) :
    ∃ db2,
      processServiceMessage env st prog chatID ct cn em
        = { st := { db := db2, os := st.os },
            prog := { prog with inserted := prog.inserted + 1 }, err := false }
      ∧ db2.messages = st.db.messages
      ∧ db2.ServiceMessageExists chatID em.id = true
      ∧ (∀ c x, ¬(c = chatID ∧ x = em.id) →
          db2.ServiceMessageExists c x = st.db.ServiceMessageExists c x)
      ∧ (NodupSvcKeys st.db → NodupSvcKeys db2) := by
  obtain ⟨t, ht⟩ := (dateOkB_iff env.rfc3339 em).mp hdate
  have hex0 := hex
  simp only [Database.ServiceMessageExists, List.any_eq_false, decide_eq_true_eq] at hex0
  unfold processServiceMessage
  rw [hok.svcExists chatID em.id]
  simp only [hex, hok.upsertChat, ht, hok.insertService, Bool.true_eq_false,
    if_false, Bool.false_eq_true, if_true, ite_true, ite_false]
  rw [InsertServiceMessage_fresh (by
    simp only [Database.ServiceMessageExists, bestEffortUpsertUser_serviceMessages,
      UpsertChat_serviceMessages]
    exact hex)]
  rw [bestEffortUpsertUser_os]
  refine ⟨_, rfl, ?_, ?_, ?_, ?_⟩
  · simp [bestEffortUpsertUser_messages, UpsertChat_messages]
  · simp [Database.ServiceMessageExists, bestEffortUpsertUser_serviceMessages,
      UpsertChat_serviceMessages]
  · intro c x hcx
    simp only [Database.ServiceMessageExists, bestEffortUpsertUser_serviceMessages,
      UpsertChat_serviceMessages, List.any_append, List.any_cons, List.any_nil]
    have : ¬(chatID = c ∧ em.id = x) := fun h => hcx ⟨h.1.symm, h.2.symm⟩
    simp [this]
  · intro hnd
    unfold NodupSvcKeys at hnd ⊢
    simp only [bestEffortUpsertUser_serviceMessages, UpsertChat_serviceMessages]
    rw [List.pairwise_append]
    refine ⟨hnd, by simp, ?_⟩
    intro a ha b hb
    simp only [List.mem_singleton] at hb
    subst hb
    simp only [not_and]
    intro hc hid
    exact absurd ⟨hc, hid⟩ (hex0 a ha)

theorem processRegularMessage_ok (env : Env) (st : ImportState) (prog : ImportProgress)
    (chatID : Int) (ct cn : String) (em : ExportMessage)
    (hok : EnvOk env)
    (hex : st.db.MessageExists chatID em.id = false)
    (hdate : dateOkB env.rfc3339 em = true) :
    ∃ db2 os2 mu,
      processRegularMessage env st prog chatID ct cn em
        = { st := { db := db2, os := os2 },
            prog := { prog with inserted := prog.inserted + 1, mediaUploaded := mu },
            err := false }
      ∧ db2.serviceMessages = st.db.serviceMessages
      ∧ db2.MessageExists chatID em.id = true
      ∧ (∀ c x, ¬(c = chatID ∧ x = em.id) →
          db2.MessageExists c x = st.db.MessageExists c x)
      ∧ (NodupMsgKeys st.db → NodupMsgKeys db2)
      ∧ prog.mediaUploaded ≤ mu := by
  obtain ⟨t, ht⟩ := (dateOkB_iff env.rfc3339 em).mp hdate
  have hex0 := hex
  simp only [Database.MessageExists, List.any_eq_false, decide_eq_true_eq] at hex0
  unfold processRegularMessage
  rw [hok.msgExists chatID em.id]
  simp only [hex, hok.upsertChat, ht, hok.insertMessage, Bool.true_eq_false,
    if_false, Bool.false_eq_true, if_true, ite_true, ite_false]
  rw [bestEffortUpsertUser_os]
  split <;> [skip; split]
  all_goals {
    dsimp only
    refine ⟨_, _, _, rfl, ?_, ?_, ?_, ?_, ?_⟩
    · simp [Database.InsertMessage, bestEffortUpsertUser_serviceMessages,
        UpsertChat_serviceMessages]
    · simp [Database.MessageExists, Database.InsertMessage, bestEffortUpsertUser_messages,
        UpsertChat_messages]
    · intro c x hcx
      simp only [Database.MessageExists, Database.InsertMessage, bestEffortUpsertUser_messages,
        UpsertChat_messages, List.any_append, List.any_cons, List.any_nil]
      have : ¬(chatID = c ∧ em.id = x) := fun h => hcx ⟨h.1.symm, h.2.symm⟩
      simp [this]
    · intro hnd
      unfold NodupMsgKeys at hnd ⊢
      simp only [Database.InsertMessage, bestEffortUpsertUser_messages, UpsertChat_messages]
      rw [List.pairwise_append]
      refine ⟨hnd, by simp, ?_⟩
      intro a ha b hb
      simp only [List.mem_singleton] at hb
      subst hb
      simp only [not_and]
      intro hc hid
      exact absurd ⟨hc, hid⟩ (hex0 a ha)
    · omega
  }

theorem processServiceMessage_dateErr (env : Env) (st : ImportState) (prog : ImportProgress)
    (chatID : Int) (ct cn : String) (em : ExportMessage)
    (hok : EnvOk env)
    (hex : st.db.ServiceMessageExists chatID em.id = false)
    (hdate : dateOkB env.rfc3339 em = false) :
    ∃ st2,
      processServiceMessage env st prog chatID ct cn em
        = { st := st2, prog := prog, err := true }
      ∧ st2.os = st.os
      ∧ st2.db.messages = st.db.messages
      ∧ st2.db.serviceMessages = st.db.serviceMessages := by
  obtain ⟨e, he⟩ := (dateOkB_false_iff env.rfc3339 em).mp hdate
  unfold processServiceMessage
  rw [hok.svcExists chatID em.id]
  simp only [hex, hok.upsertChat, he, Bool.true_eq_false, if_false, Bool.false_eq_true,
    if_true, ite_true, ite_false]
  refine ⟨_, rfl, ?_, ?_, ?_⟩
  · rw [bestEffortUpsertUser_os]
  · simp [bestEffortUpsertUser_messages, UpsertChat_messages]
  · simp [bestEffortUpsertUser_serviceMessages, UpsertChat_serviceMessages]

theorem processRegularMessage_dateErr (env : Env) (st : ImportState) (prog : ImportProgress)
    (chatID : Int) (ct cn : String) (em : ExportMessage)
    (hok : EnvOk env)
    (hex : st.db.MessageExists chatID em.id = false)
    (hdate : dateOkB env.rfc3339 em = false) :
    ∃ st2,
      processRegularMessage env st prog chatID ct cn em
        = { st := st2, prog := prog, err := true }
      ∧ st2.os = st.os
      ∧ st2.db.messages = st.db.messages
      ∧ st2.db.serviceMessages = st.db.serviceMessages := by
  obtain ⟨e, he⟩ := (dateOkB_false_iff env.rfc3339 em).mp hdate
  unfold processRegularMessage
  rw [hok.msgExists chatID em.id]
  simp only [hex, hok.upsertChat, he, Bool.true_eq_false, if_false, Bool.false_eq_true,
    if_true, ite_true, ite_false]
  refine ⟨_, rfl, ?_, ?_, ?_⟩
  · rw [bestEffortUpsertUser_os]
  · simp [bestEffortUpsertUser_messages, UpsertChat_messages]
  · simp [bestEffortUpsertUser_serviceMessages, UpsertChat_serviceMessages]

theorem stepSkip (env : Env) (chatID : Int) (ct cn : String) (st : ImportState)
    (p : ImportProgress) (em : ExportMessage)
    (hok : EnvOk env) (hkey : keyPresent st.db chatID em = true) :
    processRecordStep env chatID ct cn (st, p) em
      = (st, { p with processed := p.processed + 1, skipped := p.skipped + 1 }) := by
  unfold processRecordStep processMessage
  dsimp only
  unfold keyPresent at hkey
  by_cases hsvc : em.type = "service"
  · rw [if_pos hsvc] at hkey ⊢
    rw [processServiceMessage_skip env st _ chatID ct cn em (hok.svcExists _ _) hkey]
    simp
  · rw [if_neg hsvc] at hkey ⊢
    rw [processRegularMessage_skip env st _ chatID ct cn em (hok.msgExists _ _) hkey]
    simp

theorem stepInsert (env : Env) (chatID : Int) (ct cn : String) (st : ImportState)
    (p : ImportProgress) (em : ExportMessage)
    (hok : EnvOk env) (hkey : keyPresent st.db chatID em = false)
    (hdate : dateOkB env.rfc3339 em = true) :
    ∃ st2 mu,
      processRecordStep env chatID ct cn (st, p) em
        = (st2, { p with
                    processed := p.processed + 1
                    inserted := p.inserted + 1
                    mediaUploaded := mu })
      ∧ keyPresent st2.db chatID em = true
      ∧ (∀ em2 : ExportMessage, keyPresent st.db chatID em2 = true →
          keyPresent st2.db chatID em2 = true)
      ∧ (NodupMsgKeys st.db → NodupMsgKeys st2.db)
      ∧ (NodupSvcKeys st.db → NodupSvcKeys st2.db)
      ∧ p.mediaUploaded ≤ mu := by
  unfold processRecordStep processMessage
  dsimp only
  unfold keyPresent at hkey
  by_cases hsvc : em.type = "service"
  · rw [if_pos hsvc] at hkey ⊢
    obtain ⟨db2, heq, hm, hsx, hcg, hnd⟩ :=
      processServiceMessage_ok env st { p with processed := p.processed + 1 }
        chatID ct cn em hok hkey hdate
    rw [heq]
    refine ⟨{ db := db2, os := st.os }, p.mediaUploaded, rfl, ?_, ?_, ?_, ?_, le_rfl⟩
    · unfold keyPresent
      rw [if_pos hsvc]
      exact hsx
    · intro em2 h2
      unfold keyPresent at h2 ⊢
      by_cases h2svc : em2.type = "service"
      · rw [if_pos h2svc] at h2 ⊢
        by_cases hsame : em2.id = em.id
        · rw [hsame]; exact hsx
        · rw [hcg chatID em2.id (fun hc => hsame hc.2)]; exact h2
      · rw [if_neg h2svc] at h2 ⊢
        rw [MessageExists_congr _ _ hm]; exact h2
    · intro h
      unfold NodupMsgKeys at h ⊢
      rw [hm]; exact h
    · exact hnd
  · rw [if_neg hsvc] at hkey ⊢
    obtain ⟨db2, os2, mu, heq, hm, hsx, hcg, hnd, hmu⟩ :=
      processRegularMessage_ok env st { p with processed := p.processed + 1 }
        chatID ct cn em hok hkey hdate
    rw [heq]
    refine ⟨{ db := db2, os := os2 }, mu, rfl, ?_, ?_, ?_, ?_, hmu⟩
    · unfold keyPresent
      rw [if_neg hsvc]
      exact hsx
    · intro em2 h2
      unfold keyPresent at h2 ⊢
      by_cases h2svc : em2.type = "service"
      · rw [if_pos h2svc] at h2 ⊢
        rw [ServiceMessageExists_congr _ _ hm]; exact h2
      · rw [if_neg h2svc] at h2 ⊢
        by_cases hsame : em2.id = em.id
        · rw [hsame]; exact hsx
        · rw [hcg chatID em2.id (fun hc => hsame hc.2)]; exact h2
    · exact hnd
    · intro h
      unfold NodupSvcKeys at h ⊢
      rw [hm]; exact h

theorem stepDateErr (env : Env) (chatID : Int) (ct cn : String) (st : ImportState)
    (p : ImportProgress) (em : ExportMessage)
    (hok : EnvOk env) (hkey : keyPresent st.db chatID em = false)
    (hdate : dateOkB env.rfc3339 em = false) :
    ∃ st2,
      processRecordStep env chatID ct cn (st, p) em
        = (st2, { p with
                    processed := p.processed + 1
                    errorCount := p.errorCount + 1 })
      ∧ st2.os = st.os
      ∧ st2.db.messages = st.db.messages
      ∧ st2.db.serviceMessages = st.db.serviceMessages := by
  unfold processRecordStep processMessage
  dsimp only
  unfold keyPresent at hkey
  by_cases hsvc : em.type = "service"
  · rw [if_pos hsvc] at hkey ⊢
    obtain ⟨st2, heq, ho, hm, hs⟩ :=
      processServiceMessage_dateErr env st { p with processed := p.processed + 1 }
        chatID ct cn em hok hkey hdate
    rw [heq]
    exact ⟨st2, rfl, ho, hm, hs⟩
  · rw [if_neg hsvc] at hkey ⊢
    obtain ⟨st2, heq, ho, hm, hs⟩ :=
      processRegularMessage_dateErr env st { p with processed := p.processed + 1 }
        chatID ct cn em hok hkey hdate
    rw [heq]
    exact ⟨st2, rfl, ho, hm, hs⟩

theorem foldSkipAll (env : Env) (chatID : Int) (ct cn : String) (hok : EnvOk env)
    (L : List ExportMessage) :
    ∀ (st : ImportState) (p : ImportProgress),
      (∀ m ∈ L, keyPresent st.db chatID m = true) →
      L.foldl (processRecordStep env chatID ct cn) (st, p)
        = (st, { p with
                  processed := p.processed + L.length
                  skipped := p.skipped + L.length }) := by
  induction L with
  | nil => intro st p _; simp
  | cons m L ih =>
    intro st p h
    rw [List.foldl_cons, stepSkip env chatID ct cn st p m hok (h m (List.mem_cons_self m L)),
      ih st _ (fun x hx => h x (List.mem_cons_of_mem m hx))]
    have h1 : p.processed + 1 + L.length = p.processed + (L.length + 1) := by omega
    have h2 : p.skipped + 1 + L.length = p.skipped + (L.length + 1) := by omega
    simp [h1, h2]

theorem foldInsert (env : Env) (chatID : Int) (ct cn : String) (hok : EnvOk env)
    (L : List ExportMessage) :
    ∀ (st : ImportState) (p : ImportProgress),
      (∀ m ∈ L, dateOkB env.rfc3339 m = true) →
      (∀ m ∈ L,
          keyPresent (L.foldl (processRecordStep env chatID ct cn) (st, p)).1.db chatID m
            = true)
      ∧ (∀ em2, keyPresent st.db chatID em2 = true →
          keyPresent (L.foldl (processRecordStep env chatID ct cn) (st, p)).1.db chatID em2
            = true)
      ∧ (NodupMsgKeys st.db →
          NodupMsgKeys (L.foldl (processRecordStep env chatID ct cn) (st, p)).1.db)
      ∧ (NodupSvcKeys st.db →
          NodupSvcKeys (L.foldl (processRecordStep env chatID ct cn) (st, p)).1.db) := by
  induction L with
  | nil => intro st p _; exact ⟨fun m hm => absurd hm (List.not_mem_nil m), fun _ h => h,
      fun h => h, fun h => h⟩
  | cons m L ih =>
    intro st p hd
    rw [List.foldl_cons]
    by_cases hkey : keyPresent st.db chatID m = true
    · rw [stepSkip env chatID ct cn st p m hok hkey]
      obtain ⟨ha, hb, hc, hd2⟩ := ih st _ (fun x hx => hd x (List.mem_cons_of_mem m hx))
      refine ⟨?_, hb, hc, hd2⟩
      intro x hx
      rcases List.mem_cons.mp hx with hx | hx
      · subst hx; exact hb x hkey
      · exact ha x hx
    · have hkey' : keyPresent st.db chatID m = false := by
        cases h : keyPresent st.db chatID m
        · rfl
        · exact absurd h hkey
      obtain ⟨st2, mu, heq, hafter, hpres, hndm, hnds, _⟩ :=
        stepInsert env chatID ct cn st p m hok hkey' (hd m (List.mem_cons_self m L))
      rw [heq]
      obtain ⟨ha, hb, hc, hd2⟩ := ih st2 _ (fun x hx => hd x (List.mem_cons_of_mem m hx))
      refine ⟨?_, ?_, ?_, ?_⟩
      · intro x hx
        rcases List.mem_cons.mp hx with hx | hx
        · subst hx; exact hb x hafter
        · exact ha x hx
      · intro em2 h2
        exact hb em2 (hpres em2 h2)
      · intro h; exact hc (hndm h)
      · intro h; exact hd2 (hnds h)

theorem sliceEq (ms : List ExportMessage) (start cs : Nat) :
    (ms.drop start).take (min (start + cs) ms.length - start)
      = (ms.drop start).take cs := by
  rcases le_or_lt (start + cs) ms.length with h | h
  · rw [min_eq_left h]
    congr 1
    omega
  · rw [min_eq_right (le_of_lt h)]
    rcases le_or_lt start ms.length with h2 | h2
    · rw [List.take_of_length_le (by simp only [List.length_drop]; omega),
        List.take_of_length_le (by simp only [List.length_drop]; omega)]
    · rw [List.drop_eq_nil_of_le (le_of_lt h2)]
      simp

theorem segSplitLen (ms : List ExportMessage) (i k cs : Nat) :
    ((ms.drop (i * cs)).take ((k + 1) * cs)).length
      = ((ms.drop (i * cs)).take cs).length
        + ((ms.drop ((i + 1) * cs)).take (k * cs)).length := by
  have h1 : (k + 1) * cs = cs + k * cs := by ring
  have h2 : (i + 1) * cs = i * cs + cs := by ring
  rw [h1, List.take_add, List.length_append, List.drop_drop, h2]

theorem chunkLoopSkipAll (env : Env) (ed : ExportData) (chatID : Int) (hok : EnvOk env) :
    ∀ (k i : Nat) (st : ImportState) (p : ImportProgress) (pubs : List ImportProgress),
      (∀ m ∈ ed.messages, keyPresent st.db chatID m = true) →
      (chunkLoop env ed chatID k i (st, p) pubs).st = st
      ∧ (chunkLoop env ed chatID k i (st, p) pubs).prog.inserted = p.inserted
      ∧ (chunkLoop env ed chatID k i (st, p) pubs).prog.skipped
          = p.skipped
            + ((ed.messages.drop (i * env.chunkSize)).take (k * env.chunkSize)).length
      ∧ (chunkLoop env ed chatID k i (st, p) pubs).prog.errorCount = p.errorCount
      ∧ (chunkLoop env ed chatID k i (st, p) pubs).prog.processed
          = p.processed
            + ((ed.messages.drop (i * env.chunkSize)).take (k * env.chunkSize)).length
      ∧ (chunkLoop env ed chatID k i (st, p) pubs).prog.total = p.total
      ∧ (chunkLoop env ed chatID k i (st, p) pubs).prog.totalChunks = p.totalChunks
      ∧ (chunkLoop env ed chatID k i (st, p) pubs).cancelled = false := by
  intro k
  induction k with
  | zero =>
    intro i st p pubs h
    simp [chunkLoop]
  | succ k ih =>
    intro i st p pubs h
    have hmem : ∀ m ∈ (ed.messages.drop (i * env.chunkSize)).take env.chunkSize,
        keyPresent st.db chatID m = true :=
      fun m hm => h m (List.mem_of_mem_drop (List.mem_of_mem_take hm))
    simp only [chunkLoop, processChunk, hok.beginTx, hok.cancel, hok.commit,
      Bool.true_eq_false, if_false, ite_false, Bool.false_eq_true, ite_true]
    rw [sliceEq, foldSkipAll env chatID ed.type ed.name hok _ st _ hmem]
    obtain ⟨ha, hb, hc, hd, he, hf, hg, hh⟩ :=
      ih (i + 1) st
        { p with
            currentChunk := i + 1
            processed :=
              p.processed + ((ed.messages.drop (i * env.chunkSize)).take env.chunkSize).length
            skipped :=
              p.skipped + ((ed.messages.drop (i * env.chunkSize)).take env.chunkSize).length }
        (pubs ++ [{ p with
            currentChunk := i + 1
            processed :=
              p.processed + ((ed.messages.drop (i * env.chunkSize)).take env.chunkSize).length
            skipped :=
              p.skipped
                + ((ed.messages.drop (i * env.chunkSize)).take env.chunkSize).length }]) h
    refine ⟨ha, ?_, ?_, ?_, ?_, ?_, ?_, hh⟩
    · rw [hb]
    · rw [hc, segSplitLen]
      dsimp only
      omega
    · rw [hd]
    · rw [he, segSplitLen]
      dsimp only
      omega
    · rw [hf]
    · rw [hg]

theorem chunkLoopInsert (env : Env) (ed : ExportData) (chatID : Int) (hok : EnvOk env)
    (hdates : ∀ m ∈ ed.messages, dateOkB env.rfc3339 m = true) :
    ∀ (k i : Nat) (st : ImportState) (p : ImportProgress) (pubs : List ImportProgress),
      (∀ m ∈ (ed.messages.drop (i * env.chunkSize)).take (k * env.chunkSize),
          keyPresent (chunkLoop env ed chatID k i (st, p) pubs).st.db chatID m = true)
      ∧ (∀ em2, keyPresent st.db chatID em2 = true →
          keyPresent (chunkLoop env ed chatID k i (st, p) pubs).st.db chatID em2 = true)
      ∧ (NodupMsgKeys st.db → NodupMsgKeys (chunkLoop env ed chatID k i (st, p) pubs).st.db)
      ∧ (NodupSvcKeys st.db →
          NodupSvcKeys (chunkLoop env ed chatID k i (st, p) pubs).st.db) := by
  intro k
  induction k with
  | zero =>
    intro i st p pubs
    simp [chunkLoop]
  | succ k ih =>
    intro i st p pubs
    have hdslice : ∀ m ∈ (ed.messages.drop (i * env.chunkSize)).take env.chunkSize,
        dateOkB env.rfc3339 m = true :=
      fun m hm => hdates m (List.mem_of_mem_drop (List.mem_of_mem_take hm))
    simp only [chunkLoop, processChunk, hok.beginTx, hok.cancel, hok.commit,
      Bool.true_eq_false, if_false, ite_false, Bool.false_eq_true, ite_true]
    rw [sliceEq]
    obtain ⟨fa, fb, fc, fd⟩ :=
      foldInsert env chatID ed.type ed.name hok
        ((ed.messages.drop (i * env.chunkSize)).take env.chunkSize) st
        { p with currentChunk := i + 1 } hdslice
    set acc2 := ((ed.messages.drop (i * env.chunkSize)).take env.chunkSize).foldl
      (processRecordStep env chatID ed.type ed.name) (st, { p with currentChunk := i + 1 })
      with hacc2
    obtain ⟨ga, gb, gc, gd⟩ := ih (i + 1) acc2.1 acc2.2 (pubs ++ [acc2.2])
    have hloopeq : chunkLoop env ed chatID k (i + 1) acc2 (pubs ++ [acc2.2])
        = chunkLoop env ed chatID k (i + 1) (acc2.1, acc2.2) (pubs ++ [acc2.2]) := by
      rfl
    refine ⟨?_, ?_, ?_, ?_⟩
    · intro m hm
      rw [show (k + 1) * env.chunkSize = env.chunkSize + k * env.chunkSize from by ring,
        List.take_add] at hm
      rcases List.mem_append.mp hm with hm | hm
      · rw [hloopeq]
        exact gb m (fa m hm)
      · rw [List.drop_drop,
          show i * env.chunkSize + env.chunkSize = (i + 1) * env.chunkSize from by ring] at hm
        rw [hloopeq]
        exact ga m hm
    · intro em2 h2
      rw [hloopeq]
      exact gb em2 (fb em2 h2)
    · intro h
      rw [hloopeq]
      exact gc (fc h)
    · intro h
      rw [hloopeq]
      exact gd (fd h)


theorem ceilMul (len cs : Nat) (hcs : 1 ≤ cs) : len ≤ (len + cs - 1) / cs * cs := by
  have h := Nat.div_add_mod (len + cs - 1) cs
  rw [Nat.mul_comm] at h
  have h2 : (len + cs - 1) % cs < cs := Nat.mod_lt _ (by omega)
  omega

theorem segFull (ms : List ExportMessage) (cs : Nat) (hcs : 1 ≤ cs) :
    (ms.drop (0 * cs)).take ((ms.length + cs - 1) / cs * cs) = ms := by
  rw [Nat.zero_mul, List.drop_zero]
  exact List.take_of_length_le (ceilMul ms.length cs hcs)

theorem Import_unfold (env : Env) (locks : List Int) (chatID : Int) (ed : ExportData)
    (st : ImportState) (h : chatID ∉ locks) :
    Import env locks chatID ed st
      = { locks := locks,
          st := (chunkLoop env ed chatID
                  ((ed.messages.length + env.chunkSize - 1) / env.chunkSize) 0
                  (st, { total := ed.messages.length,
                         totalChunks :=
                           (ed.messages.length + env.chunkSize - 1) / env.chunkSize }) []).st,
          published := (chunkLoop env ed chatID
                  ((ed.messages.length + env.chunkSize - 1) / env.chunkSize) 0
                  (st, { total := ed.messages.length,
                         totalChunks :=
                           (ed.messages.length + env.chunkSize - 1) / env.chunkSize })
                  []).published,
          finalProgress := (chunkLoop env ed chatID
                  ((ed.messages.length + env.chunkSize - 1) / env.chunkSize) 0
                  (st, { total := ed.messages.length,
                         totalChunks :=
                           (ed.messages.length + env.chunkSize - 1) / env.chunkSize }) []).prog,
          result := if (chunkLoop env ed chatID
                  ((ed.messages.length + env.chunkSize - 1) / env.chunkSize) 0
                  (st, { total := ed.messages.length,
                         totalChunks :=
                           (ed.messages.length + env.chunkSize - 1) / env.chunkSize })
                  []).cancelled then .error "context canceled" else .ok () } := by
  simp [Import, h]

/-- Claim C1: re-running Import over the same manifest against a store
populated by a first run is idempotent: every record hits the natural-key
existence check and is skipped, so the second run ends with Inserted equal
to 0 and Skipped equal to the record count, the stores unchanged, and no
duplicate rows. -/
theorem Import_reimport_idempotent (env : Env) (chatID : Int) (ed : ExportData)
    (hok : EnvOk env) (hcs : 1 ≤ env.chunkSize)
    (hdates : ∀ m ∈ ed.messages, dateOkB env.rfc3339 m = true) :
    (Import env [] chatID ed (Import env [] chatID ed {}).st).result = .ok ()
    ∧ (Import env [] chatID ed (Import env [] chatID ed {}).st).st
        = (Import env [] chatID ed {}).st
    ∧ (Import env [] chatID ed (Import env [] chatID ed {}).st).finalProgress.inserted = 0
    ∧ (Import env [] chatID ed (Import env [] chatID ed {}).st).finalProgress.skipped
        = ed.messages.length
    ∧ NodupMsgKeys (Import env [] chatID ed (Import env [] chatID ed {}).st).st.db
    ∧ NodupSvcKeys (Import env [] chatID ed (Import env [] chatID ed {}).st).st.db := by
  have hnil : (chatID : Int) ∉ ([] : List Int) := List.not_mem_nil chatID
  rw [Import_unfold env [] chatID ed {} hnil,
    Import_unfold env [] chatID ed _ hnil]
  obtain ⟨ka, kb, kc, kd⟩ := chunkLoopInsert env ed chatID hok hdates
    ((ed.messages.length + env.chunkSize - 1) / env.chunkSize) 0 {}
    { total := ed.messages.length,
      totalChunks := (ed.messages.length + env.chunkSize - 1) / env.chunkSize } []
  rw [segFull ed.messages env.chunkSize hcs] at ka
  obtain ⟨sa, sb, sc, sd, se, sf, sg, sh⟩ := chunkLoopSkipAll env ed chatID hok
    ((ed.messages.length + env.chunkSize - 1) / env.chunkSize) 0 _
    { total := ed.messages.length,
      totalChunks := (ed.messages.length + env.chunkSize - 1) / env.chunkSize } [] ka
  refine ⟨?_, ?_, ?_, ?_, ?_, ?_⟩
  · simp only [sh, if_false, Bool.false_eq_true, ite_false]
  · exact sa
  · rw [sb]
  · rw [sc]
    have hlen : ((ed.messages.drop (0 * env.chunkSize)).take
        ((ed.messages.length + env.chunkSize - 1) / env.chunkSize * env.chunkSize)).length
        = ed.messages.length := by
      rw [segFull ed.messages env.chunkSize hcs]
    rw [hlen]
    simp
  · rw [sa]
    exact kc (by simp [NodupMsgKeys])
  · rw [sa]
    exact kd (by simp [NodupSvcKeys])

theorem okEnv_ok : EnvOk okEnv :=
  ⟨fun _ _ => rfl, fun _ _ => rfl, fun _ => rfl, fun _ => rfl, fun _ => rfl, fun _ => rfl,
   fun _ => rfl, fun _ => rfl, fun _ => rfl⟩

theorem processRegularMessage_media_failure (env : Env) (st : ImportState)
    (prog : ImportProgress) (chatID : Int) (ct cn : String) (em : ExportMessage)
    (hok : EnvOk env)
    (hex : st.db.MessageExists chatID em.id = false)
    (hdate : dateOkB env.rfc3339 em = true)
    (hpath : GetMediaPath em ≠ "")
    (hfail : ∃ e, processMedia env st.os (GetMediaPath em) (stringValue em.mimeType)
        = .error e) :
    ∃ db2,
      processRegularMessage env st prog chatID ct cn em
        = { st := { db := db2, os := st.os },
            prog := { prog with inserted := prog.inserted + 1 }, err := false }
      ∧ ∃ rest, db2.messages = st.db.messages ++ rest
          ∧ rest.map (fun r => r.mediaSHA256) = [none]
          ∧ rest.map (fun r => (r.chatID, r.telegramMessageID)) = [(chatID, em.id)] := by
  obtain ⟨t, ht⟩ := (dateOkB_iff env.rfc3339 em).mp hdate
  obtain ⟨e, he⟩ := hfail
  unfold processRegularMessage
  rw [hok.msgExists chatID em.id]
  simp only [hex, hok.upsertChat, ht, hok.insertMessage, Bool.true_eq_false,
    if_false, Bool.false_eq_true, if_true, ite_true, ite_false]
  rw [if_neg hpath]
  simp only [bestEffortUpsertUser_os]
  rw [he]
  dsimp only
  simp only [bestEffortUpsertUser_os]
  refine ⟨_, rfl, ?_⟩
  simp only [Database.InsertMessage, bestEffortUpsertUser_messages, UpsertChat_messages]
  refine ⟨_, rfl, ?_, ?_⟩ <;> simp


/-- Claim C5: a failure to read or upload a declared media reference is
swallowed: the owning message is still inserted with its media hash
unpopulated, the MediaUploaded counter is not incremented, and the record
handler returns no error, so ingestion is never aborted by the media
failure. -/
theorem media_failure_swallowed (env : Env) (st : ImportState)
    (prog : ImportProgress) (chatID : Int) (ct cn : String) (em : ExportMessage)
    (hok : EnvOk env)
    (hex : st.db.MessageExists chatID em.id = false)
    (hdate : dateOkB env.rfc3339 em = true)
    (hpath : GetMediaPath em ≠ "")
    (hfail : ∃ e, processMedia env st.os (GetMediaPath em) (stringValue em.mimeType)
        = .error e) :
    (processRegularMessage env st prog chatID ct cn em).err = false
    ∧ (processRegularMessage env st prog chatID ct cn em).prog.mediaUploaded
        = prog.mediaUploaded
    ∧ (processRegularMessage env st prog chatID ct cn em).prog.inserted
        = prog.inserted + 1
    ∧ (processRegularMessage env st prog chatID ct cn em).st.os = st.os
    ∧ ∃ rest,
        (processRegularMessage env st prog chatID ct cn em).st.db.messages
          = st.db.messages ++ rest
        ∧ rest.map (fun r => r.mediaSHA256) = [none]
        ∧ rest.map (fun r => (r.chatID, r.telegramMessageID)) = [(chatID, em.id)] := by
  obtain ⟨db2, heq, hrest⟩ :=
    processRegularMessage_media_failure env st prog chatID ct cn em hok hex hdate hpath hfail
  rw [heq]
  exact ⟨rfl, rfl, rfl, rfl, hrest⟩

/-- Claim C5 witness: a record whose photo path cannot be read is still
inserted without a hash. -/
theorem media_failure_swallowed_witness :
    (processRegularMessage okEnv {} {} 5 "group" "g" wmedia).err = false
    ∧ (processRegularMessage okEnv {} {} 5 "group" "g" wmedia).prog.mediaUploaded
        = ({} : ImportProgress).mediaUploaded
    ∧ (processRegularMessage okEnv {} {} 5 "group" "g" wmedia).prog.inserted
        = ({} : ImportProgress).inserted + 1
    ∧ (processRegularMessage okEnv {} {} 5 "group" "g" wmedia).st.os
        = ({} : ImportState).os
    ∧ ∃ rest,
        (processRegularMessage okEnv {} {} 5 "group" "g" wmedia).st.db.messages
          = ({} : ImportState).db.messages ++ rest
        ∧ rest.map (fun r => r.mediaSHA256) = [none]
        ∧ rest.map (fun r => (r.chatID, r.telegramMessageID)) = [(5, wmedia.id)] :=
  media_failure_swallowed okEnv {} {} 5 "group" "g" wmedia okEnv_ok (by decide) (by decide)
    (by decide) ⟨"failed to read media file", rfl⟩

/-- Claim C1 witness: the four-record manifest imported twice against an
initially empty store. -/
theorem Import_reimport_idempotent_witness :
    (Import okEnv [] 5 wED (Import okEnv [] 5 wED {}).st).result = .ok ()
    ∧ (Import okEnv [] 5 wED (Import okEnv [] 5 wED {}).st).st
        = (Import okEnv [] 5 wED {}).st
    ∧ (Import okEnv [] 5 wED (Import okEnv [] 5 wED {}).st).finalProgress.inserted = 0
    ∧ (Import okEnv [] 5 wED (Import okEnv [] 5 wED {}).st).finalProgress.skipped
        = wED.messages.length
    ∧ NodupMsgKeys (Import okEnv [] 5 wED (Import okEnv [] 5 wED {}).st).st.db
    ∧ NodupSvcKeys (Import okEnv [] 5 wED (Import okEnv [] 5 wED {}).st).st.db :=
  Import_reimport_idempotent okEnv 5 wED okEnv_ok (by decide) (by decide)

/-- Claim C6: date resolution prefers the epoch-seconds string when it is
present and parses as a base-10 integer; otherwise the ISO-8601 field is
consulted; if neither is present and parseable the record fails with a
date error that is per-record and non-fatal: the import over such a record
still returns nil with the error counter incremented. -/
theorem parseMessageDate_resolution (rfc : String → Option Int) (em : ExportMessage) :
    (∀ ts, em.dateUnixtime ≠ "" → goParseInt64 em.dateUnixtime = some ts →
      parseMessageDate rfc em = .ok ts)
    ∧ ((em.dateUnixtime = "" ∨ goParseInt64 em.dateUnixtime = none) → ∀ t, em.date ≠ "" →
        rfc em.date = some t → parseMessageDate rfc em = .ok t)
    ∧ ((em.dateUnixtime = "" ∨ goParseInt64 em.dateUnixtime = none) →
        (em.date = "" ∨ rfc em.date = none) → ∃ e, parseMessageDate rfc em = .error e)
    ∧ (∀ (env : Env) (chatID : Int) (nm tp : String) (cid : Int) (st : ImportState),
        EnvOk env → env.rfc3339 = rfc →
        1 ≤ env.chunkSize → dateOkB rfc em = false → keyPresent st.db chatID em = false →
        (Import env [] chatID { name := nm, type := tp, id := cid, messages := [em] }
            st).result = .ok ()
        ∧ (Import env [] chatID { name := nm, type := tp, id := cid, messages := [em] }
            st).finalProgress.errorCount = 1
        ∧ (Import env [] chatID { name := nm, type := tp, id := cid, messages := [em] }
            st).finalProgress.inserted = 0) := by
  refine ⟨?_, ?_, ?_, ?_⟩
  · intro ts hne hp
    unfold parseMessageDate
    rw [if_neg hne, hp]
  · rintro (h | h) t hne hr <;> unfold parseMessageDate
    · rw [if_pos h]
      simp [if_neg hne, hr]
    · by_cases h0 : em.dateUnixtime = ""
      · rw [if_pos h0]
        simp [if_neg hne, hr]
      · rw [if_neg h0, h]
        simp [if_neg hne, hr]
  · rintro h1 h2
    have hu : (if em.dateUnixtime = "" then none else goParseInt64 em.dateUnixtime) = none := by
      rcases h1 with h | h
      · rw [if_pos h]
      · by_cases h0 : em.dateUnixtime = ""
        · rw [if_pos h0]
        · rw [if_neg h0, h]
    unfold parseMessageDate
    rw [hu]
    rcases h2 with h | h
    · rw [if_pos h]
      exact ⟨_, rfl⟩
    · by_cases h0 : em.date = ""
      · rw [if_pos h0]
        exact ⟨_, rfl⟩
      · rw [if_neg h0, h]
        exact ⟨_, rfl⟩
  · intro env chatID nm tp cid st hok hrfc hcs hdate hkey
    subst hrfc
    have hnil : (chatID : Int) ∉ ([] : List Int) := List.not_mem_nil chatID
    rw [Import_unfold env [] chatID _ st hnil]
    have htc : (List.length [em] + env.chunkSize - 1) / env.chunkSize = 1 := by
      simp only [List.length_singleton]
      have : 1 + env.chunkSize - 1 = env.chunkSize := by omega
      rw [this, Nat.div_self (by omega)]
    simp only [htc]
    obtain ⟨st2, heq, _, _, _⟩ := stepDateErr env chatID tp nm st
      { total := List.length [em], totalChunks := 1, currentChunk := 1 } em hok hkey hdate
    simp only [chunkLoop, processChunk, hok.beginTx, hok.cancel, hok.commit,
      Bool.true_eq_false, if_false, ite_false, Bool.false_eq_true, ite_true,
      Nat.zero_mul, List.drop_zero]
    rw [min_eq_right (by simp [hcs] : List.length [em] ≤ 0 + env.chunkSize)]
    simp only [Nat.sub_zero, List.take_of_length_le (le_refl (List.length [em])),
      List.foldl_cons, List.foldl_nil]
    rw [heq]
    exact ⟨trivial, by simp, by simp⟩


/-- Claim C6 witness: an epoch-dated record, an ISO-dated record, and a
record with no resolvable date, the latter run through a singleton
manifest. -/
theorem parseMessageDate_resolution_witness :
    parseMessageDate okEnv.rfc3339 wm1 = .ok 100
    ∧ parseMessageDate okEnv.rfc3339 wm3 = .ok 1609459200
    ∧ (∃ e, parseMessageDate okEnv.rfc3339 wbad = .error e)
    ∧ (Import okEnv [] 5 { name := "g", type := "group", id := 5, messages := [wbad] }
        {}).result = .ok ()
    ∧ (Import okEnv [] 5 { name := "g", type := "group", id := 5, messages := [wbad] }
        {}).finalProgress.errorCount = 1
    ∧ (Import okEnv [] 5 { name := "g", type := "group", id := 5, messages := [wbad] }
        {}).finalProgress.inserted = 0 := by
  obtain ⟨h4a, h4b, h4c⟩ :=
    (parseMessageDate_resolution okEnv.rfc3339 wbad).2.2.2 okEnv 5 "g" "group" 5 {}
      okEnv_ok rfl (by decide) (by decide) (by decide)
  exact ⟨(parseMessageDate_resolution okEnv.rfc3339 wm1).1 100 (by decide) (by decide),
    (parseMessageDate_resolution okEnv.rfc3339 wm3).2.1 (Or.inl rfl) 1609459200
      (by decide) (by decide),
    (parseMessageDate_resolution okEnv.rfc3339 wbad).2.2.1 (Or.inr (by decide))
      (Or.inr (by decide)),
    h4a, h4b, h4c⟩

theorem bestEffortUpsertUser_fail (env : Env) (st : ImportState) (uP : Option Int)
    (dn : Option String) (h : ∀ u, env.upsertUserOk u = false) :
    bestEffortUpsertUser env st uP dn = st := by
  unfold bestEffortUpsertUser
  cases uP with
  | none => rfl
  | some v => simp [h]

theorem UpsertChat_users (db : Database) (c : Chat) :
    (db.UpsertChat c).users = db.users := by
  unfold Database.UpsertChat
  split <;> rfl

theorem processRegularMessage_actorFail (env : Env) (st : ImportState)
    (prog : ImportProgress) (chatID : Int) (ct cn : String) (em : ExportMessage)
    (hok : EnvOk env)
    (hex : st.db.MessageExists chatID em.id = false)
    (hdate : dateOkB env.rfc3339 em = true)
    (hfid : em.fromID ≠ "")
    (hbadid : ∃ e, ParseUserID em.fromID = .error e)
    (hnomedia : GetMediaPath em = "") :
    ∃ db2,
      processRegularMessage env st prog chatID ct cn em
        = { st := { db := db2, os := st.os },
            prog := { prog with inserted := prog.inserted + 1 }, err := false }
      ∧ ∃ rest, db2.messages = st.db.messages ++ rest
          ∧ rest.map (fun r => r.userID) = [none]
          ∧ rest.map (fun r => (r.chatID, r.telegramMessageID)) = [(chatID, em.id)] := by
  obtain ⟨t, ht⟩ := (dateOkB_iff env.rfc3339 em).mp hdate
  obtain ⟨e, he⟩ := hbadid
  unfold processRegularMessage
  rw [hok.msgExists chatID em.id]
  simp only [hex, hok.upsertChat, ht, hok.insertMessage, Bool.true_eq_false,
    if_false, Bool.false_eq_true, if_true, ite_true, ite_false]
  rw [if_neg hfid, he]
  dsimp only
  simp only [if_pos hnomedia]
  refine ⟨_, rfl, ?_⟩
  simp only [Database.InsertMessage, bestEffortUpsertUser_messages, UpsertChat_messages]
  refine ⟨_, rfl, ?_, ?_⟩ <;> simp

theorem processRegularMessage_upsertUserFail (env : Env) (st : ImportState)
    (prog : ImportProgress) (chatID : Int) (ct cn : String) (em : ExportMessage)
    (hq : env.msgExistsOk chatID em.id = true)
    (hex : st.db.MessageExists chatID em.id = false)
    (hchat : env.upsertChatOk { id := chatID, type := ct, name := cn } = true)
    (hins : ∀ r, env.insertMessageOk r = true)
    (hdate : dateOkB env.rfc3339 em = true)
    (huser : ∀ u, env.upsertUserOk u = false)
    (hnomedia : GetMediaPath em = "") :
    ∃ db2,
      processRegularMessage env st prog chatID ct cn em
        = { st := { db := db2, os := st.os },
            prog := { prog with inserted := prog.inserted + 1 }, err := false }
      ∧ db2.users = st.db.users
      ∧ ∃ rest, db2.messages = st.db.messages ++ rest
          ∧ rest.map (fun r => (r.chatID, r.telegramMessageID)) = [(chatID, em.id)] := by
  obtain ⟨t, ht⟩ := (dateOkB_iff env.rfc3339 em).mp hdate
  unfold processRegularMessage
  rw [hq]
  simp only [hex, hchat, ht, hins, Bool.true_eq_false,
    if_false, Bool.false_eq_true, if_true, ite_true, ite_false]
  rw [bestEffortUpsertUser_fail env _ _ _ huser]
  simp only [if_pos hnomedia]
  refine ⟨_, rfl, ?_, ?_⟩
  · simp only [Database.InsertMessage, UpsertChat_users]
  · simp only [Database.InsertMessage, UpsertChat_messages]
    refine ⟨_, rfl, ?_⟩
    simp

theorem processRegularMessage_insertFail (env : Env) (st : ImportState)
    (prog : ImportProgress) (chatID : Int) (ct cn : String) (em : ExportMessage)
    (hq : env.msgExistsOk chatID em.id = true)
    (hex : st.db.MessageExists chatID em.id = false)
    (hchat : env.upsertChatOk { id := chatID, type := ct, name := cn } = true)
    (hdate : dateOkB env.rfc3339 em = true)
    (hnomedia : GetMediaPath em = "")
    (hins : ∀ r, env.insertMessageOk r = false) :
    ∃ st2,
      processRegularMessage env st prog chatID ct cn em
        = { st := st2, prog := prog, err := true }
      ∧ st2.db.messages = st.db.messages := by
  obtain ⟨t, ht⟩ := (dateOkB_iff env.rfc3339 em).mp hdate
  unfold processRegularMessage
  rw [hq]
  simp only [hex, hchat, ht, hins, eq_self_iff_true, Bool.true_eq_false, if_false,
    Bool.false_eq_true, if_true, ite_true, ite_false]
  simp only [if_pos hnomedia]
  refine ⟨_, rfl, ?_⟩
  simp only [bestEffortUpsertUser_messages, UpsertChat_messages]

theorem processServiceMessage_insertFail (env : Env) (st : ImportState)
    (prog : ImportProgress) (chatID : Int) (ct cn : String) (em : ExportMessage)
    (hq : env.svcExistsOk chatID em.id = true)
    (hex : st.db.ServiceMessageExists chatID em.id = false)
    (hchat : env.upsertChatOk { id := chatID, type := ct, name := cn } = true)
    (hdate : dateOkB env.rfc3339 em = true)
    (hins : ∀ r, env.insertServiceOk r = false) :
    ∃ st2,
      processServiceMessage env st prog chatID ct cn em
        = { st := st2, prog := prog, err := true }
      ∧ st2.db.serviceMessages = st.db.serviceMessages := by
  obtain ⟨t, ht⟩ := (dateOkB_iff env.rfc3339 em).mp hdate
  unfold processServiceMessage
  rw [hq]
  simp only [hex, hchat, ht, hins, eq_self_iff_true, Bool.true_eq_false, if_false,
    Bool.false_eq_true, if_true, ite_true, ite_false]
  refine ⟨_, rfl, ?_⟩
  simp only [bestEffortUpsertUser_serviceMessages, UpsertChat_serviceMessages]

theorem stepInsertFailReg (env : Env) (chatID : Int) (ct cn : String) (st : ImportState)
    (p : ImportProgress) (em : ExportMessage)
    (htype : em.type ≠ "service")
    (hq : env.msgExistsOk chatID em.id = true)
    (hex : st.db.MessageExists chatID em.id = false)
    (hchat : env.upsertChatOk { id := chatID, type := ct, name := cn } = true)
    (hdate : dateOkB env.rfc3339 em = true)
    (hnomedia : GetMediaPath em = "")
    (hins : ∀ r, env.insertMessageOk r = false) :
    ∃ st2,
      processRecordStep env chatID ct cn (st, p) em
        = (st2, { p with
                    processed := p.processed + 1
                    errorCount := p.errorCount + 1 })
      ∧ st2.db.messages = st.db.messages := by
  unfold processRecordStep processMessage
  dsimp only
  rw [if_neg htype]
  obtain ⟨st2, heq, hm⟩ :=
    processRegularMessage_insertFail env st { p with processed := p.processed + 1 }
      chatID ct cn em hq hex hchat hdate hnomedia hins
  rw [heq]
  exact ⟨st2, rfl, hm⟩

theorem stepInsertCount (env : Env) (chatID : Int) (ct cn : String) (st : ImportState)
    (p : ImportProgress) (em : ExportMessage)
    (hok : EnvOk env) (hkey : keyPresent st.db chatID em = false)
    (hdate : dateOkB env.rfc3339 em = true) :
    ∃ st2 mu,
      processRecordStep env chatID ct cn (st, p) em
        = (st2, { p with
                    processed := p.processed + 1
                    inserted := p.inserted + 1
                    mediaUploaded := mu })
      ∧ (∀ em2 : ExportMessage, em2.id ≠ em.id →
          keyPresent st2.db chatID em2 = keyPresent st.db chatID em2) := by
  unfold processRecordStep processMessage
  dsimp only
  unfold keyPresent at hkey
  by_cases hsvc : em.type = "service"
  · rw [if_pos hsvc] at hkey ⊢
    obtain ⟨db2, heq, hm, _, hcg, _⟩ :=
      processServiceMessage_ok env st { p with processed := p.processed + 1 }
        chatID ct cn em hok hkey hdate
    rw [heq]
    refine ⟨{ db := db2, os := st.os }, p.mediaUploaded, rfl, ?_⟩
    intro em2 hne
    unfold keyPresent
    by_cases h2svc : em2.type = "service"
    · simp only [if_pos h2svc]
      exact hcg chatID em2.id (fun hc => hne hc.2)
    · simp only [if_neg h2svc]
      exact MessageExists_congr _ _ hm
  · rw [if_neg hsvc] at hkey ⊢
    obtain ⟨db2, os2, mu, heq, hm, _, hcg, _, _⟩ :=
      processRegularMessage_ok env st { p with processed := p.processed + 1 }
        chatID ct cn em hok hkey hdate
    rw [heq]
    refine ⟨{ db := db2, os := os2 }, mu, rfl, ?_⟩
    intro em2 hne
    unfold keyPresent
    by_cases h2svc : em2.type = "service"
    · simp only [if_pos h2svc]
      exact ServiceMessageExists_congr _ _ hm
    · simp only [if_neg h2svc]
      exact hcg chatID em2.id (fun hc => hne hc.2)

theorem stepErrCount (env : Env) (chatID : Int) (ct cn : String) (st : ImportState)
    (p : ImportProgress) (em : ExportMessage)
    (hok : EnvOk env) (hkey : keyPresent st.db chatID em = false)
    (hdate : dateOkB env.rfc3339 em = false) :
    ∃ st2,
      processRecordStep env chatID ct cn (st, p) em
        = (st2, { p with
                    processed := p.processed + 1
                    errorCount := p.errorCount + 1 })
      ∧ (∀ em2 : ExportMessage,
          keyPresent st2.db chatID em2 = keyPresent st.db chatID em2) := by
  obtain ⟨st2, heq, _, hm, hs⟩ := stepDateErr env chatID ct cn st p em hok hkey hdate
  refine ⟨st2, heq, ?_⟩
  intro em2
  unfold keyPresent
  by_cases h2svc : em2.type = "service"
  · simp only [if_pos h2svc]
    exact ServiceMessageExists_congr _ _ hs
  · simp only [if_neg h2svc]
    exact MessageExists_congr _ _ hm

theorem foldCountAny (env : Env) (chatID : Int) (ct cn : String) (hok : EnvOk env)
    (L : List ExportMessage) :
    ∀ (st : ImportState) (p : ImportProgress),
      (∀ m ∈ L, keyPresent st.db chatID m = false) →
      List.Pairwise (fun a b => a.id ≠ b.id) L →
      (L.foldl (processRecordStep env chatID ct cn) (st, p)).2.processed
          = p.processed + L.length
      ∧ (L.foldl (processRecordStep env chatID ct cn) (st, p)).2.inserted
          = p.inserted + (L.filter (fun m => dateOkB env.rfc3339 m)).length
      ∧ (L.foldl (processRecordStep env chatID ct cn) (st, p)).2.errorCount
          = p.errorCount + (L.filter (fun m => !dateOkB env.rfc3339 m)).length
      ∧ (L.foldl (processRecordStep env chatID ct cn) (st, p)).2.skipped = p.skipped
      ∧ (L.foldl (processRecordStep env chatID ct cn) (st, p)).2.total = p.total
      ∧ (L.foldl (processRecordStep env chatID ct cn) (st, p)).2.totalChunks = p.totalChunks
      ∧ (L.foldl (processRecordStep env chatID ct cn) (st, p)).2.currentChunk
          = p.currentChunk
      ∧ (∀ em2 : ExportMessage, (∀ m ∈ L, em2.id ≠ m.id) →
          keyPresent (L.foldl (processRecordStep env chatID ct cn) (st, p)).1.db chatID em2
            = keyPresent st.db chatID em2) := by
  induction L with
  | nil =>
    intro st p _ _
    exact ⟨by simp, by simp, by simp, rfl, rfl, rfl, rfl, fun em2 _ => rfl⟩
  | cons m L ih =>
    intro st p hfresh hpair
    have hkey : keyPresent st.db chatID m = false := hfresh m (List.mem_cons_self m L)
    have hpairhead : ∀ b ∈ L, m.id ≠ b.id := fun b hb => List.rel_of_pairwise_cons hpair hb
    have hpairtail : List.Pairwise (fun a b => a.id ≠ b.id) L := hpair.of_cons
    cases hd : dateOkB env.rfc3339 m with
    | true =>
      obtain ⟨st2, mu, heq, hcg⟩ := stepInsertCount env chatID ct cn st p m hok hkey hd
      rw [List.foldl_cons, heq]
      have hfresh2 : ∀ m2 ∈ L, keyPresent st2.db chatID m2 = false := by
        intro m2 hm2
        rw [hcg m2 (fun h => (hpairhead m2 hm2) h.symm)]
        exact hfresh m2 (List.mem_cons_of_mem m hm2)
      obtain ⟨ia, ib, ic, id2, ie, if2, ig, ih2⟩ := ih st2 _ hfresh2 hpairtail
      refine ⟨?_, ?_, ?_, ?_, ?_, ?_, ?_, ?_⟩
      · rw [ia]; simp; omega
      · rw [ib]; simp [List.filter_cons, hd]; omega
      · rw [ic]; simp [List.filter_cons, hd]
      · rw [id2]
      · rw [ie]
      · rw [if2]
      · rw [ig]
      · intro em2 hx
        rw [ih2 em2 (fun m2 hm2 => hx m2 (List.mem_cons_of_mem m hm2)),
          hcg em2 (hx m (List.mem_cons_self m L))]
    | false =>
      obtain ⟨st2, heq, hcg⟩ := stepErrCount env chatID ct cn st p m hok hkey hd
      rw [List.foldl_cons, heq]
      have hfresh2 : ∀ m2 ∈ L, keyPresent st2.db chatID m2 = false := by
        intro m2 hm2
        rw [hcg m2]
        exact hfresh m2 (List.mem_cons_of_mem m hm2)
      obtain ⟨ia, ib, ic, id2, ie, if2, ig, ih2⟩ := ih st2 _ hfresh2 hpairtail
      refine ⟨?_, ?_, ?_, ?_, ?_, ?_, ?_, ?_⟩
      · rw [ia]; simp; omega
      · rw [ib]; simp [List.filter_cons, hd]
      · rw [ic]; simp [List.filter_cons, hd]; omega
      · rw [id2]
      · rw [ie]
      · rw [if2]
      · rw [ig]
      · intro em2 hx
        rw [ih2 em2 (fun m2 hm2 => hx m2 (List.mem_cons_of_mem m hm2)), hcg em2]

theorem chunkLoopCountAny (env : Env) (ed : ExportData) (chatID : Int) (hok : EnvOk env) :
    ∀ (k i : Nat) (st : ImportState) (p : ImportProgress) (pubs : List ImportProgress),
      (∀ m ∈ (ed.messages.drop (i * env.chunkSize)).take (k * env.chunkSize),
          keyPresent st.db chatID m = false) →
      List.Pairwise (fun a b => a.id ≠ b.id)
        ((ed.messages.drop (i * env.chunkSize)).take (k * env.chunkSize)) →
      (chunkLoop env ed chatID k i (st, p) pubs).cancelled = false
      ∧ (chunkLoop env ed chatID k i (st, p) pubs).prog.processed
          = p.processed
            + ((ed.messages.drop (i * env.chunkSize)).take (k * env.chunkSize)).length
      ∧ (chunkLoop env ed chatID k i (st, p) pubs).prog.inserted
          = p.inserted
            + (((ed.messages.drop (i * env.chunkSize)).take (k * env.chunkSize)).filter
                (fun m => dateOkB env.rfc3339 m)).length
      ∧ (chunkLoop env ed chatID k i (st, p) pubs).prog.errorCount
          = p.errorCount
            + (((ed.messages.drop (i * env.chunkSize)).take (k * env.chunkSize)).filter
                (fun m => !dateOkB env.rfc3339 m)).length
      ∧ (chunkLoop env ed chatID k i (st, p) pubs).prog.skipped = p.skipped
      ∧ (chunkLoop env ed chatID k i (st, p) pubs).prog.total = p.total
      ∧ (chunkLoop env ed chatID k i (st, p) pubs).prog.totalChunks = p.totalChunks := by
  intro k
  induction k with
  | zero =>
    intro i st p pubs _ _
    simp [chunkLoop]
  | succ k ih =>
    intro i st p pubs hfresh hpair
    have hsplit : (ed.messages.drop (i * env.chunkSize)).take ((k + 1) * env.chunkSize)
        = (ed.messages.drop (i * env.chunkSize)).take env.chunkSize
          ++ (ed.messages.drop ((i + 1) * env.chunkSize)).take (k * env.chunkSize) := by
      rw [show (k + 1) * env.chunkSize = env.chunkSize + k * env.chunkSize from by ring,
        List.take_add, List.drop_drop,
        show i * env.chunkSize + env.chunkSize = (i + 1) * env.chunkSize from by ring]
    rw [hsplit] at hfresh hpair
    obtain ⟨hpairA, hpairB, hcross⟩ := List.pairwise_append.mp hpair
    have hfreshA : ∀ m ∈ (ed.messages.drop (i * env.chunkSize)).take env.chunkSize,
        keyPresent st.db chatID m = false :=
      fun m hm => hfresh m (List.mem_append_left _ hm)
    simp only [chunkLoop, processChunk, hok.beginTx, hok.cancel, hok.commit,
      Bool.true_eq_false, if_false, ite_false, Bool.false_eq_true, ite_true]
    rw [sliceEq]
    obtain ⟨fa, fb, fc, fd, fe, ff, fg, fh⟩ :=
      foldCountAny env chatID ed.type ed.name hok
        ((ed.messages.drop (i * env.chunkSize)).take env.chunkSize) st
        { p with currentChunk := i + 1 } hfreshA hpairA
    have e1 : ({ p with currentChunk := i + 1 } : ImportProgress).processed
        = p.processed := rfl
    have e2 : ({ p with currentChunk := i + 1 } : ImportProgress).inserted = p.inserted := rfl
    have e3 : ({ p with currentChunk := i + 1 } : ImportProgress).errorCount
        = p.errorCount := rfl
    have e4 : ({ p with currentChunk := i + 1 } : ImportProgress).skipped = p.skipped := rfl
    have e5 : ({ p with currentChunk := i + 1 } : ImportProgress).total = p.total := rfl
    have e6 : ({ p with currentChunk := i + 1 } : ImportProgress).totalChunks
        = p.totalChunks := rfl
    rw [e1] at fa
    rw [e2] at fb
    rw [e3] at fc
    rw [e4] at fd
    rw [e5] at fe
    rw [e6] at ff
    set acc2 := ((ed.messages.drop (i * env.chunkSize)).take env.chunkSize).foldl
      (processRecordStep env chatID ed.type ed.name)
      (st, { p with currentChunk := i + 1 }) with hacc2
    have hfreshB : ∀ m ∈ (ed.messages.drop ((i + 1) * env.chunkSize)).take
          (k * env.chunkSize),
        keyPresent acc2.1.db chatID m = false := by
      intro m hm
      rw [fh m (fun m2 hm2 => (hcross m2 hm2 m hm).symm)]
      exact hfresh m (List.mem_append_right _ hm)
    obtain ⟨ga, gb, gc, gd, ge, gf, gg⟩ := ih (i + 1) acc2.1 acc2.2 (pubs ++ [acc2.2])
      hfreshB hpairB
    have hloopeq : chunkLoop env ed chatID k (i + 1) acc2 (pubs ++ [acc2.2])
        = chunkLoop env ed chatID k (i + 1) (acc2.1, acc2.2) (pubs ++ [acc2.2]) := rfl
    rw [← hloopeq] at ga gb gc gd ge gf gg
    rw [hsplit]
    refine ⟨ga, ?_, ?_, ?_, ?_, ?_, ?_⟩
    · rw [gb, fa]
      simp only [List.length_append]
      omega
    · rw [gc, fb]
      simp only [List.filter_append, List.length_append]
      omega
    · rw [gd, fc]
      simp only [List.filter_append, List.length_append]
      omega
    · rw [ge, fd]
    · rw [gf, fe]
    · rw [gg, ff]

/-- Claim C9 (amended): per-record failures never abort the import: with
one unresolvable-date record among N otherwise-valid records (regular and
service records alike), Import returns nil with N-1 insertions, the error
counter at one and nothing skipped (first four conjuncts); an unparseable
date and a failed single-record insert are counted in ErrorCount and the
loop continues - a one-record import whose insert fails still returns nil
with ErrorCount 1, and a failed service-row insert likewise comes out of
the record step as one counted error (fifth and sixth conjuncts) - while
a media read/upload failure, an unparseable actor id and a failed
participant upsert are only logged: the owning record is still inserted
(with its media hash or sender id left empty, the user table untouched)
and the error counter is not incremented (last three conjuncts). -/
theorem Import_per_record_failures (env : Env) (chatID : Int) (ed : ExportData)
    (hok : EnvOk env) (hcs : 1 ≤ env.chunkSize)
    (hpair : List.Pairwise (fun a b => a.id ≠ b.id) ed.messages)
    (hbad : (ed.messages.filter (fun m => !dateOkB env.rfc3339 m)).length = 1) :
    (Import env [] chatID ed {}).result = .ok ()
    ∧ (Import env [] chatID ed {}).finalProgress.inserted = ed.messages.length - 1
    ∧ (Import env [] chatID ed {}).finalProgress.errorCount = 1
    ∧ (Import env [] chatID ed {}).finalProgress.skipped = 0
    ∧ (∀ (env2 : Env) (nm tp : String) (cid : Int) (st : ImportState)
        (em : ExportMessage),
        1 ≤ env2.chunkSize → env2.beginTxOk 0 = true → env2.commitOk 0 = true →
        env2.cancelAt 0 = false → em.type ≠ "service" →
        env2.msgExistsOk chatID em.id = true →
        st.db.MessageExists chatID em.id = false →
        env2.upsertChatOk { id := chatID, type := tp, name := nm } = true →
        dateOkB env2.rfc3339 em = true → GetMediaPath em = "" →
        (∀ r, env2.insertMessageOk r = false) →
        (Import env2 [] chatID
            { name := nm, type := tp, id := cid, messages := [em] } st).result = .ok ()
        ∧ (Import env2 [] chatID
            { name := nm, type := tp, id := cid, messages := [em] }
            st).finalProgress.errorCount = 1
        ∧ (Import env2 [] chatID
            { name := nm, type := tp, id := cid, messages := [em] }
            st).finalProgress.inserted = 0)
    ∧ (∀ (env2 : Env) (st : ImportState) (p : ImportProgress) (ct cn : String)
        (em : ExportMessage),
        em.type = "service" →
        env2.svcExistsOk chatID em.id = true →
        st.db.ServiceMessageExists chatID em.id = false →
        env2.upsertChatOk { id := chatID, type := ct, name := cn } = true →
        dateOkB env2.rfc3339 em = true →
        (∀ r, env2.insertServiceOk r = false) →
        ∃ st2,
          processRecordStep env2 chatID ct cn (st, p) em
            = (st2, { p with
                        processed := p.processed + 1
                        errorCount := p.errorCount + 1 }))
    ∧ (∀ (st : ImportState) (prog : ImportProgress) (ct cn : String) (em : ExportMessage),
        st.db.MessageExists chatID em.id = false → dateOkB env.rfc3339 em = true →
        GetMediaPath em ≠ "" →
        (∃ e, processMedia env st.os (GetMediaPath em) (stringValue em.mimeType)
            = .error e) →
        (processRegularMessage env st prog chatID ct cn em).err = false
        ∧ (processRegularMessage env st prog chatID ct cn em).prog.errorCount
            = prog.errorCount
        ∧ (processRegularMessage env st prog chatID ct cn em).prog.inserted
            = prog.inserted + 1)
    ∧ (∀ (st : ImportState) (prog : ImportProgress) (ct cn : String) (em : ExportMessage),
        st.db.MessageExists chatID em.id = false → dateOkB env.rfc3339 em = true →
        em.fromID ≠ "" → (∃ e, ParseUserID em.fromID = .error e) →
        GetMediaPath em = "" →
        (processRegularMessage env st prog chatID ct cn em).err = false
        ∧ (processRegularMessage env st prog chatID ct cn em).prog.errorCount
            = prog.errorCount
        ∧ (processRegularMessage env st prog chatID ct cn em).prog.inserted
            = prog.inserted + 1
        ∧ ∃ rest,
            (processRegularMessage env st prog chatID ct cn em).st.db.messages
              = st.db.messages ++ rest
            ∧ rest.map (fun r => r.userID) = [none])
    ∧ (∀ (env2 : Env) (st : ImportState) (prog : ImportProgress) (ct cn : String)
        (em : ExportMessage),
        env2.msgExistsOk chatID em.id = true →
        st.db.MessageExists chatID em.id = false →
        env2.upsertChatOk { id := chatID, type := ct, name := cn } = true →
        (∀ r, env2.insertMessageOk r = true) →
        dateOkB env2.rfc3339 em = true →
        (∀ u, env2.upsertUserOk u = false) →
        GetMediaPath em = "" →
        (processRegularMessage env2 st prog chatID ct cn em).err = false
        ∧ (processRegularMessage env2 st prog chatID ct cn em).prog.errorCount
            = prog.errorCount
        ∧ (processRegularMessage env2 st prog chatID ct cn em).prog.inserted
            = prog.inserted + 1
        ∧ (processRegularMessage env2 st prog chatID ct cn em).st.db.users
            = st.db.users) := by
  have hnil : (chatID : Int) ∉ ([] : List Int) := List.not_mem_nil chatID
  rw [Import_unfold env [] chatID ed {} hnil]
  have hseg := segFull ed.messages env.chunkSize hcs
  obtain ⟨ca, cb, cc, cd, ce, cf, cg⟩ := chunkLoopCountAny env ed chatID hok
    ((ed.messages.length + env.chunkSize - 1) / env.chunkSize) 0 {}
    { total := ed.messages.length,
      totalChunks := (ed.messages.length + env.chunkSize - 1) / env.chunkSize } []
    (by rw [hseg]; intro m _; unfold keyPresent; split <;> rfl)
    (by rw [hseg]; exact hpair)
  rw [hseg] at cb cc cd
  dsimp only at cb cc cd ce
  have hcount := @List.length_eq_length_filter_add _ ed.messages
    (fun m => dateOkB env.rfc3339 m)
  refine ⟨?_, ?_, ?_, ?_, ?_, ?_, ?_, ?_, ?_⟩
  · simp only [ca, if_false, Bool.false_eq_true, ite_false]
  · rw [cc]
    simp only at hcount
    omega
  · rw [cd, hbad]
  · rw [ce]
  · intro env2 nm tp cid st em hcs2 hbegin hcommit hcancel htype hq hex hchat hdate
      hnomedia hins
    have hnil2 : (chatID : Int) ∉ ([] : List Int) := List.not_mem_nil chatID
    rw [Import_unfold env2 [] chatID _ st hnil2]
    have htc : (List.length [em] + env2.chunkSize - 1) / env2.chunkSize = 1 := by
      simp only [List.length_singleton]
      have h1 : 1 + env2.chunkSize - 1 = env2.chunkSize := by omega
      rw [h1, Nat.div_self (by omega)]
    simp only [htc]
    obtain ⟨st2, heq, _⟩ := stepInsertFailReg env2 chatID tp nm st
      { total := List.length [em], totalChunks := 1, currentChunk := 1 } em htype hq hex
      hchat hdate hnomedia hins
    simp only [chunkLoop, processChunk, hbegin, hcancel, hcommit,
      Bool.true_eq_false, if_false, ite_false, Bool.false_eq_true, ite_true,
      Nat.zero_mul, List.drop_zero]
    rw [min_eq_right (by simp [hcs2] : List.length [em] ≤ 0 + env2.chunkSize)]
    simp only [Nat.sub_zero, List.take_of_length_le (le_refl (List.length [em])),
      List.foldl_cons, List.foldl_nil]
    rw [heq]
    exact ⟨trivial, by simp, by simp⟩
  · intro env2 st p ct cn em hsvc hq hex hchat hdate hins
    obtain ⟨st2, heq, _⟩ :=
      processServiceMessage_insertFail env2 st { p with processed := p.processed + 1 }
        chatID ct cn em hq hex hchat hdate hins
    refine ⟨st2, ?_⟩
    unfold processRecordStep processMessage
    dsimp only
    rw [if_pos hsvc, heq]
    rfl
  · intro st prog ct cn em hex hdate hpath hfail
    obtain ⟨db2, heq, _⟩ :=
      processRegularMessage_media_failure env st prog chatID ct cn em hok hex hdate
        hpath hfail
    rw [heq]
    exact ⟨rfl, rfl, rfl⟩
  · intro st prog ct cn em hex hdate hfid hbadid hnomedia
    obtain ⟨db2, heq, rest, hrest, hmap, _⟩ :=
      processRegularMessage_actorFail env st prog chatID ct cn em hok hex hdate hfid
        hbadid hnomedia
    rw [heq]
    exact ⟨rfl, rfl, rfl, rest, hrest, hmap⟩
  · intro env2 st prog ct cn em hq hex hchat hins hdate huser hnomedia
    obtain ⟨db2, heq, husers, _⟩ :=
      processRegularMessage_upsertUserFail env2 st prog chatID ct cn em hq hex hchat hins
        hdate huser hnomedia
    rw [heq]
    exact ⟨rfl, rfl, rfl, husers⟩

/-- Claim C9 counterexample: the claim says every per-record failure kind
is counted in the error counter; here three of the listed kinds - a media
read failure, an unparseable actor id, and a participant-upsert failure -
each leave ErrorCount at 0 while the owning record is still inserted (the
sender id stays empty and the user table stays untouched where
applicable). -/
theorem per_record_failures_not_counted_cex :
    (okEnv.readMedia "missing.jpg" = none
      ∧ GetMediaPath wmedia = "missing.jpg"
      ∧ (Import okEnv [] 5 wEDmedia {}).finalProgress.inserted = 1
      ∧ ¬1 ≤ (Import okEnv [] 5 wEDmedia {}).finalProgress.errorCount)
    ∧ ((∃ e, ParseUserID wactor.fromID = .error e)
      ∧ (Import okEnv [] 5 wEDactor {}).finalProgress.inserted = 1
      ∧ (Import okEnv [] 5 wEDactor {}).st.db.messages.map (fun r => r.userID) = [none]
      ∧ ¬1 ≤ (Import okEnv [] 5 wEDactor {}).finalProgress.errorCount)
    ∧ ((∀ u, upsertFailEnv.upsertUserOk u = false)
      ∧ (Import upsertFailEnv [] 5 wEDuser {}).finalProgress.inserted = 1
      ∧ (Import upsertFailEnv [] 5 wEDuser {}).st.db.users = []
      ∧ ¬1 ≤ (Import upsertFailEnv [] 5 wEDuser {}).finalProgress.errorCount) :=
  ⟨⟨rfl, rfl, rfl, by decide⟩,
   ⟨⟨_, rfl⟩, rfl, by decide, by decide⟩,
   ⟨fun u => rfl, rfl, rfl, by decide⟩⟩

/-- Claim C9 witness: the four-record mixed manifest with one bad date,
plus the counted insert failure instantiated at a concrete one-record
manifest whose insert is forced to fail. -/
theorem Import_per_record_failures_witness :
    (Import okEnv [] 5 wED9 {}).result = .ok ()
    ∧ (Import okEnv [] 5 wED9 {}).finalProgress.inserted = wED9.messages.length - 1
    ∧ (Import okEnv [] 5 wED9 {}).finalProgress.errorCount = 1
    ∧ (Import okEnv [] 5 wED9 {}).finalProgress.skipped = 0
    ∧ (Import insertFailEnv [] 5 wEDuser {}).result = .ok ()
    ∧ (Import insertFailEnv [] 5 wEDuser {}).finalProgress.errorCount = 1
    ∧ (Import insertFailEnv [] 5 wEDuser {}).finalProgress.inserted = 0 := by
  have h := Import_per_record_failures okEnv 5 wED9 okEnv_ok (by decide) (by decide)
    (by decide)
  have hi := h.2.2.2.2.1 insertFailEnv "g" "group" 5 {} wuser (by decide) rfl rfl rfl
    (by decide) rfl (by decide) rfl (by decide) (by decide) (fun r => rfl)
  exact ⟨h.1, h.2.1, h.2.2.1, h.2.2.2.1, hi.1, hi.2.1, hi.2.2⟩

end BeefBriefing
